import Mathlib

/-!
The webhook `apiai-istio-webhook`.

A shallow embedding of `main.go`, `istio.go` and `types.go`, and the properties of
the webhook dispatcher and of the Istio client proved over it.

Conventions of the embedding.

* Go `string` is `String`, Go `int64` is `Int` (range checks are explicit where the
  code performs them), Go `map[string]string` is an association list with at most
  one entry per key.
* A Go `error` is a value of `Err`; a `nil` error is `none`.
* The outside world is the record `Env`: the verdict of `net/url` on a URL string
  handed to `http.NewRequest`, and the answer of `httpClient.Do` to a request.
  Every call of `httpClient.Do` is recorded, in order, in an `outbound` list.
* `encoding/json` is embedded above the lexical layer: a well-formed JSON text is
  given by its document (`Json`), and the reflective decoder is written out for each
  target type as its declaration in `types.go` drives it.
* `log.Printf` lines are not part of the embedding.
-/

set_option autoImplicit false
set_option linter.unusedVariables false

namespace IstioWebhook

/-! ## JSON documents -/

/-- A well-formed JSON text. A number literal without fraction and exponent part is
`int`, any other number literal is `real` and keeps its text. An object keeps its
members in document order, repeated keys included. -/
inductive Json where
  | null
  | bool (b : Bool)
  | int (i : Int)
  | real (text : String)
  | str (s : String)
  | arr (xs : List Json)
  | obj (kvs : List (String × Json))

/-- The bytes of a message body, as `json.Unmarshal` sees them: bytes that are not
well-formed JSON (the empty body is one), or a document. -/
inductive Data where
  | garbage (raw : String)
  | json (doc : Json)

/-- A message body as a reader: reading it to the end fails, or yields its bytes. -/
inductive Body where
  | unreadable (msg : String)
  | bytes (data : Data)

/-- The errors of `encoding/json`. -/
inductive JsonErr where
  /-- The bytes are not well-formed JSON (`*json.SyntaxError`). -/
  | malformed (raw : String)
  /-- A JSON value does not fit the Go type (`*json.UnmarshalTypeError`). -/
  | mismatch (value : String) (target : String)
  deriving DecidableEq, Repr

/-- Go errors that the program can meet. -/
inductive Err where
  /-- `http.NewRequest` failed: the URL string does not parse. -/
  | url (msg : String)
  /-- `httpClient.Do` failed. -/
  | transport (msg : String)
  /-- `fmt.Errorf("<op> error: non-200 status code: %d", resp.StatusCode)`. -/
  | status (op : String) (code : Nat)
  /-- `ioutil.ReadAll` failed. -/
  | read (msg : String)
  /-- An error of `json.Marshal` or `json.Unmarshal`, handed on as it is. -/
  | json (e : JsonErr)
  deriving DecidableEq, Repr

/-- The text of an error of `encoding/json`, in outline (the position of a syntax
error and the name of the struct field are left out). -/
def JsonErr.Error : JsonErr → String
  | .malformed raw => "invalid character in " ++ raw
  | .mismatch value target =>
      "json: cannot unmarshal " ++ value ++ " into Go value of type " ++ target

/-- The text of an error, `err.Error()`. -/
def Err.Error : Err → String
  | .url msg => msg
  | .transport msg => msg
  | .status op code => op ++ " error: non-200 status code: " ++ toString code
  | .read msg => msg
  | .json e => e.Error

/-- The name `encoding/json` gives a JSON value in a type error. -/
def Json.describe : Json → String
  | .null => "null"
  | .bool _ => "bool"
  | .int _ => "number"
  | .real _ => "number"
  | .str _ => "string"
  | .arr _ => "array"
  | .obj _ => "object"

/-! ## Go maps with string keys -/

/-- Go `map[string]T`. -/
abbrev GoMap (T : Type) := List (String × T)

/-- The map index expression `m[k]`: the zero value when the key is absent. -/
def mapIndex {T : Type} (zero : T) (m : GoMap T) (k : String) : T :=
  (m.lookup k).getD zero

/-- The assignment `m[k] = v`. -/
def mapSet {T : Type} (m : GoMap T) (k : String) (v : T) : GoMap T :=
  (k, v) :: m.filter (fun p => p.1 != k)

/-! ## `types.go` -/

structure Aspect where
  Kind : String := ""
  deriving DecidableEq, Repr

structure Rule where
  Aspects : List Aspect := []
  Selector : String := ""
  deriving DecidableEq, Repr

structure MixerRule where
  Rules : List Rule := []
  deriving DecidableEq, Repr

structure SimpleRetry where
  Attempts : Int := 0
  PerTryTimeout : String := ""
  deriving DecidableEq, Repr

structure SimpleTimeout where
  Timeout : String := ""
  deriving DecidableEq, Repr

structure HttpReqRetries where
  SimpleRetry : SimpleRetry := {}
  deriving DecidableEq, Repr

structure HttpReqTimeout where
  SimpleTimeout : SimpleTimeout := {}
  deriving DecidableEq, Repr

structure Route where
  Tags : GoMap String := []
  Weight : Int := 0
  deriving DecidableEq, Repr

structure RouteSpec where
  Destination : String := ""
  HttpReqRetries : HttpReqRetries := {}
  HttpReqTimeout : HttpReqTimeout := {}
  Precedence : Int := 0
  Route : List Route := []
  deriving DecidableEq, Repr

/-- The first field is `Type` in the source; `Type` is reserved here. -/
structure RouteRule where
  Type_ : String := ""
  Name : String := ""
  Spec : RouteSpec := {}
  deriving DecidableEq, Repr

structure Edge where
  Source : String := ""
  Target : String := ""
  Labels : GoMap String := []
  deriving DecidableEq, Repr

structure Topology where
  Nodes : GoMap (GoMap String) := []
  Edges : List Edge := []
  deriving DecidableEq, Repr

/-! ## `encoding/json`: decoding -/

/-- The range of Go `int64`. -/
def inInt64 (i : Int) : Prop :=
  -9223372036854775808 ≤ i ∧ i ≤ 9223372036854775807

instance (i : Int) : Decidable (inInt64 i) := by
  unfold inInt64; infer_instance

/-- Case folding of one character of an object key: ASCII upper case goes to lower
case, and the two non-ASCII characters that fold onto ASCII letters (U+017F onto
`s`, U+212A onto `k`) go to them. -/
def foldRune (c : Char) : Nat :=
  let n := c.toNat
  if 65 ≤ n ∧ n ≤ 90 then n + 32
  else if n = 0x17F then 115
  else if n = 0x212A then 107
  else n

/-- A key or field name, case folded. -/
def foldName (s : String) : List Nat := s.data.map foldRune

/-- Whether the object key `key` selects the struct field (or tag) `name`:
`encoding/json` takes an exact match and otherwise a case-insensitive one. The
field names of this program are ASCII letters only, and no two fields of one
struct fold to the same name, so the match is equality after folding. -/
def fieldMatch (key name : String) : Bool := foldName key == foldName name

/-- Decoding a JSON value into a Go `string` that holds `cur`. `null` leaves the
target as it is. -/
def decodeString (v : Json) (cur : String) : Except JsonErr String :=
  match v with
  | .null => .ok cur
  | .str s => .ok s
  | other => .error (.mismatch other.describe "string")

/-- Decoding a JSON value into a Go `int64` that holds `cur`: a number literal must
be an integer literal in range (`strconv.ParseInt`), and the type error names the
literal otherwise. -/
def decodeInt64 (v : Json) (cur : Int) : Except JsonErr Int :=
  match v with
  | .null => .ok cur
  | .int i => if inInt64 i then .ok i else .error (.mismatch ("number " ++ toString i) "int64")
  | .real text => .error (.mismatch ("number " ++ text) "int64")
  | other => .error (.mismatch other.describe "int64")

/-- Decoding a JSON value into a Go struct that holds `cur`: the members of an
object are stored one after the other, in document order, by `setField`; `null`
leaves the struct as it is; anything else is a type error. The first type error
met is the error `json.Unmarshal` returns. -/
def decodeStruct {T : Type} (target : String) (setField : String → Json → T → Except JsonErr T)
    (v : Json) (cur : T) : Except JsonErr T :=
  match v with
  | .null => .ok cur
  | .obj kvs => kvs.foldlM (fun acc kv => setField kv.1 kv.2 acc) cur
  | other => .error (.mismatch other.describe target)

/-- Decoding a JSON value into a Go `map[string]T` that holds `cur`: each member of
an object is decoded into a fresh zero element and assigned under its key (keys
are taken as they are); `null` sets the map to nil. -/
def decodeMap {T : Type} (target : String) (zero : T) (decodeElem : Json → T → Except JsonErr T)
    (v : Json) (cur : GoMap T) : Except JsonErr (GoMap T) :=
  match v with
  | .null => .ok []
  | .obj kvs => kvs.foldlM (fun m kv => do
      let e ← decodeElem kv.2 zero
      pure (mapSet m kv.1 e)) cur
  | other => .error (.mismatch other.describe target)

/-- The elements of a JSON array decoded into a slice that holds `cur`: element `i`
is decoded into `cur[i]` when the slice has one and into a zero element
otherwise; the slice ends with the array. -/
def decodeElems {T : Type} (zero : T) (decodeElem : Json → T → Except JsonErr T) :
    List Json → List T → Except JsonErr (List T)
  | [], _ => .ok []
  | x :: xs, cur => do
      let e ← decodeElem x (cur.headD zero)
      let rest ← decodeElems zero decodeElem xs cur.tail
      pure (e :: rest)

/-- Decoding a JSON value into a Go slice that holds `cur`; `null` sets the slice
to nil. (Go reuses spare capacity without clearing it, so a slice shortened by an
earlier repeated key may start an element from stale data; here such an element
starts from zero.) -/
def decodeSlice {T : Type} (target : String) (zero : T) (decodeElem : Json → T → Except JsonErr T)
    (v : Json) (cur : List T) : Except JsonErr (List T) :=
  match v with
  | .null => .ok []
  | .arr xs => decodeElems zero decodeElem xs cur
  | other => .error (.mismatch other.describe target)

/-- The function `ioutil.ReadAll` on a message body. -/
def ReadAll : Body → Except Err Data
  | .unreadable msg => .error (.read msg)
  | .bytes data => .ok data

/-- The function `json.Unmarshal(data, &v)` for a target `v` that holds `cur` and is
decoded by `decode`: the syntax of the whole text is checked first. -/
def Unmarshal {T : Type} (decode : Json → T → Except JsonErr T) (data : Data) (cur : T) :
    Except JsonErr T :=
  match data with
  | .garbage raw => .error (.malformed raw)
  | .json doc => decode doc cur

/-! ### The decoders of the types of `types.go` -/

/-- Storing one object member into a `SimpleRetry`. Unknown keys are skipped. -/
def SimpleRetry.setField (key : String) (x : Json) (r : SimpleRetry) :
    Except JsonErr SimpleRetry :=
  if fieldMatch key "Attempts" then do
    let a ← decodeInt64 x r.Attempts
    pure { r with Attempts := a }
  else if fieldMatch key "PerTryTimeout" then do
    let t ← decodeString x r.PerTryTimeout
    pure { r with PerTryTimeout := t }
  else pure r

def SimpleRetry.decode : Json → SimpleRetry → Except JsonErr SimpleRetry :=
  decodeStruct "main.SimpleRetry" SimpleRetry.setField

/-- Storing one object member into a `SimpleTimeout`. -/
def SimpleTimeout.setField (key : String) (x : Json) (r : SimpleTimeout) :
    Except JsonErr SimpleTimeout :=
  if fieldMatch key "Timeout" then do
    let t ← decodeString x r.Timeout
    pure { r with Timeout := t }
  else pure r

def SimpleTimeout.decode : Json → SimpleTimeout → Except JsonErr SimpleTimeout :=
  decodeStruct "main.SimpleTimeout" SimpleTimeout.setField

/-- Storing one object member into a `HttpReqRetries`. -/
def HttpReqRetries.setField (key : String) (x : Json) (r : HttpReqRetries) :
    Except JsonErr HttpReqRetries :=
  if fieldMatch key "SimpleRetry" then do
    let s ← SimpleRetry.decode x r.SimpleRetry
    pure { r with SimpleRetry := s }
  else pure r

def HttpReqRetries.decode : Json → HttpReqRetries → Except JsonErr HttpReqRetries :=
  decodeStruct "main.HttpReqRetries" HttpReqRetries.setField

/-- Storing one object member into a `HttpReqTimeout`. -/
def HttpReqTimeout.setField (key : String) (x : Json) (r : HttpReqTimeout) :
    Except JsonErr HttpReqTimeout :=
  if fieldMatch key "SimpleTimeout" then do
    let s ← SimpleTimeout.decode x r.SimpleTimeout
    pure { r with SimpleTimeout := s }
  else pure r

def HttpReqTimeout.decode : Json → HttpReqTimeout → Except JsonErr HttpReqTimeout :=
  decodeStruct "main.HttpReqTimeout" HttpReqTimeout.setField

/-- Decoding into a `map[string]string`. -/
def decodeStringMap : Json → GoMap String → Except JsonErr (GoMap String) :=
  decodeMap "map[string]string" "" decodeString

/-- Storing one object member into a `Route`. -/
def Route.setField (key : String) (x : Json) (r : Route) : Except JsonErr Route :=
  if fieldMatch key "Tags" then do
    let t ← decodeStringMap x r.Tags
    pure { r with Tags := t }
  else if fieldMatch key "Weight" then do
    let w ← decodeInt64 x r.Weight
    pure { r with Weight := w }
  else pure r

def Route.decode : Json → Route → Except JsonErr Route :=
  decodeStruct "main.Route" Route.setField

/-- Storing one object member into a `RouteSpec`. -/
def RouteSpec.setField (key : String) (x : Json) (r : RouteSpec) : Except JsonErr RouteSpec :=
  if fieldMatch key "Destination" then do
    let d ← decodeString x r.Destination
    pure { r with Destination := d }
  else if fieldMatch key "HttpReqRetries" then do
    let h ← HttpReqRetries.decode x r.HttpReqRetries
    pure { r with HttpReqRetries := h }
  else if fieldMatch key "HttpReqTimeout" then do
    let h ← HttpReqTimeout.decode x r.HttpReqTimeout
    pure { r with HttpReqTimeout := h }
  else if fieldMatch key "Precedence" then do
    let p ← decodeInt64 x r.Precedence
    pure { r with Precedence := p }
  else if fieldMatch key "Route" then do
    let rs ← decodeSlice "[]main.Route" {} Route.decode x r.Route
    pure { r with Route := rs }
  else pure r

def RouteSpec.decode : Json → RouteSpec → Except JsonErr RouteSpec :=
  decodeStruct "main.RouteSpec" RouteSpec.setField

/-- Storing one object member into a `RouteRule`. -/
def RouteRule.setField (key : String) (x : Json) (r : RouteRule) : Except JsonErr RouteRule :=
  if fieldMatch key "Type" then do
    let t ← decodeString x r.Type_
    pure { r with Type_ := t }
  else if fieldMatch key "Name" then do
    let n ← decodeString x r.Name
    pure { r with Name := n }
  else if fieldMatch key "Spec" then do
    let s ← RouteSpec.decode x r.Spec
    pure { r with Spec := s }
  else pure r

def RouteRule.decode : Json → RouteRule → Except JsonErr RouteRule :=
  decodeStruct "main.RouteRule" RouteRule.setField

/-- Storing one object member into an `Edge`. -/
def Edge.setField (key : String) (x : Json) (r : Edge) : Except JsonErr Edge :=
  if fieldMatch key "Source" then do
    let s ← decodeString x r.Source
    pure { r with Source := s }
  else if fieldMatch key "Target" then do
    let t ← decodeString x r.Target
    pure { r with Target := t }
  else if fieldMatch key "Labels" then do
    let l ← decodeStringMap x r.Labels
    pure { r with Labels := l }
  else pure r

def Edge.decode : Json → Edge → Except JsonErr Edge :=
  decodeStruct "main.Edge" Edge.setField

/-- Storing one object member into a `Topology`. -/
def Topology.setField (key : String) (x : Json) (r : Topology) : Except JsonErr Topology :=
  if fieldMatch key "Nodes" then do
    let n ← decodeMap "map[string]map[string]string" [] decodeStringMap x r.Nodes
    pure { r with Nodes := n }
  else if fieldMatch key "Edges" then do
    let e ← decodeSlice "[]main.Edge" {} Edge.decode x r.Edges
    pure { r with Edges := e }
  else pure r

def Topology.decode : Json → Topology → Except JsonErr Topology :=
  decodeStruct "main.Topology" Topology.setField

/-! ## `encoding/json`: encoding -/

def Aspect.encode (a : Aspect) : Json :=
  .obj [("Kind", .str a.Kind)]

def Rule.encode (r : Rule) : Json :=
  .obj [("Aspects", .arr (r.Aspects.map Aspect.encode)), ("Selector", .str r.Selector)]

def MixerRule.encode (m : MixerRule) : Json :=
  .obj [("Rules", .arr (m.Rules.map Rule.encode))]

/-- The function `json.Marshal(&mixerRule)`: the fields in declaration order under
their Go names. It has no failing case on these types. (A nil slice would be
written `null`; the slices `DenyAccess` builds are not nil.) -/
def Marshal (m : MixerRule) : Except JsonErr Json :=
  .ok m.encode

/-! ## Package `ai` -/

namespace ai

/-- Modelled from the spec: the declaration of `ai.Response` (package
`github.com/kelseyhightower/api/ai`) is not among the sources. The spec gives the
reply as JSON `{ speech, displayText, source }`; these are the three fields the
handlers set. -/
structure Response where
  Speech : String := ""
  DisplayText : String := ""
  Source : String := ""
  deriving DecidableEq, Repr

/-- Modelled from the spec: the `result` member of the request, an action string
and a string-to-string parameter mapping. -/
structure Result where
  Action : String := ""
  Parameters : GoMap String := []
  deriving DecidableEq, Repr

/-- Modelled from the spec: the declaration of `ai.Request` is not among the
sources. The spec gives the inbound body as
`{ result: { action: string, parameters: {string:string} } }`. -/
structure Request where
  Result : Result := {}
  deriving DecidableEq, Repr

/-- Modelled from the spec: storing one object member into the `result` record,
under the JSON names `action` and `parameters`. -/
def Result.setField (key : String) (x : Json) (r : Result) : Except JsonErr Result :=
  if fieldMatch key "action" then do
    let a ← decodeString x r.Action
    pure { r with Action := a }
  else if fieldMatch key "parameters" then do
    let p ← decodeStringMap x r.Parameters
    pure { r with Parameters := p }
  else pure r

/-- Modelled from the spec: decoding into the `result` record. -/
def Result.decode : Json → Result → Except JsonErr Result :=
  decodeStruct "ai.Result" Result.setField

/-- Modelled from the spec: storing one object member into the request record,
under the JSON name `result`. -/
def Request.setField (key : String) (x : Json) (r : Request) : Except JsonErr Request :=
  if fieldMatch key "result" then do
    let res ← Result.decode x r.Result
    pure { r with Result := res }
  else pure r

/-- Modelled from the spec: decoding into the request record. -/
def Request.decode : Json → Request → Except JsonErr Request :=
  decodeStruct "ai.Request" Request.setField

/-- Modelled from the spec: the JSON written for a response record, the members
`speech`, `displayText` and `source`. -/
def Response.encode (r : Response) : Json :=
  .obj [("speech", .str r.Speech), ("displayText", .str r.DisplayText),
    ("source", .str r.Source)]

end ai

/-- The function `json.MarshalIndent(aiResponse, "", "  ")` on a `*ai.Response`:
a nil pointer is written as `null`, without error; a record is written as its
object. It has no failing case on this type. -/
def MarshalIndent (aiResponse : Option ai.Response) : Except JsonErr Json :=
  match aiResponse with
  | none => .ok .null
  | some r => .ok r.encode

/-! ## `net/http` -/

/-- An outbound request as built by `http.NewRequest` and the calls that follow
it: method, URL string, added headers, basic-auth credentials, body. -/
structure HttpRequest where
  Method : String
  URL : String
  Header : List (String × String) := []
  BasicAuth : Option (String × String) := none
  Body : Option Json := none

/-- A response of the control plane. -/
structure HttpResponse where
  StatusCode : Nat
  Body : Body

/-- The world outside the program. `urlError u` is the error of `net/url` when
the URL string `u` does not parse (`http.NewRequest` then fails), `none` when it
parses. `Do` is the answer of `httpClient.Do`: a transport failure or a response. -/
structure Env where
  urlError : String → Option String
  Do : HttpRequest → Except String HttpResponse

/-- The function `http.NewRequest(method, urlStr, body)`. -/
def NewRequest (env : Env) (method urlStr : String) (body : Option Json) :
    Except Err HttpRequest :=
  match env.urlError urlStr with
  | some msg => .error (.url msg)
  | none => .ok { Method := method, URL := urlStr, Body := body }

/-- The result of a client operation and the requests it handed to
`httpClient.Do`, in order. -/
structure Outcome (T : Type) where
  result : Except Err T
  outbound : List HttpRequest

/-! ## `istio.go` -/

structure IstioClient where
  configAPIService : String
  mixerAPIService : String
  serviceGraphService : String
  password : String
  username : String
  deriving DecidableEq, Repr

def NewIstioClient (username password configAPIService mixerAPIService
    serviceGraphService : String) : IstioClient :=
  { configAPIService := configAPIService
    mixerAPIService := mixerAPIService
    serviceGraphService := serviceGraphService
    password := password
    username := username }

def IstioClient.AllowAccess (env : Env) (c : IstioClient) (to_ from_ : String) :
    Outcome Unit :=
  let urlStr := "http://" ++ c.mixerAPIService ++ "/api/v1/scopes/global/subjects/" ++ to_ ++
    ".default.svc.cluster.local/rules"
  match NewRequest env "DELETE" urlStr none with
  | .error err => ⟨.error err, []⟩
  | .ok request =>
    match env.Do request with
    | .error msg => ⟨.error (.transport msg), [request]⟩
    | .ok resp =>
      if resp.StatusCode != 200 then
        ⟨.error (.status "AllowAccess" resp.StatusCode), [request]⟩
      else ⟨.ok (), [request]⟩

def IstioClient.DenyAccess (env : Env) (c : IstioClient) (to_ from_ : String) :
    Outcome Unit :=
  let urlStr := "http://" ++ c.mixerAPIService ++ "/api/v1/scopes/global/subjects/" ++ to_ ++
    ".default.svc.cluster.local/rules"
  let mixerRule : MixerRule :=
    { Rules := [{ Selector := "source.labels[\"app\"]==\"" ++ from_ ++ "\""
                  Aspects := [{ Kind := "denials" }] }] }
  match Marshal mixerRule with
  | .error err => ⟨.error (.json err), []⟩
  | .ok body =>
    match NewRequest env "PUT" urlStr (some body) with
    | .error err => ⟨.error err, []⟩
    | .ok request =>
      let request := { request with
        Header := request.Header ++ [("Content-Type", "application/json")] }
      match env.Do request with
      | .error msg => ⟨.error (.transport msg), [request]⟩
      | .ok resp =>
        if resp.StatusCode != 200 then
          ⟨.error (.status "DenyAccess" resp.StatusCode), [request]⟩
        else ⟨.ok (), [request]⟩

def IstioClient.GetRouteRule (env : Env) (c : IstioClient) (name : String) :
    Outcome RouteRule :=
  let urlStr := "http://" ++ c.configAPIService ++ "/v1alpha1/config/route-rule/default/" ++
    name ++ "-default"
  match NewRequest env "GET" urlStr none with
  | .error err => ⟨.error err, []⟩
  | .ok request =>
    let request := { request with BasicAuth := some (c.username, c.password) }
    match env.Do request with
    | .error msg => ⟨.error (.transport msg), [request]⟩
    | .ok resp =>
      if resp.StatusCode != 200 then
        ⟨.error (.status "GetRouteRule" resp.StatusCode), [request]⟩
      else
        match ReadAll resp.Body with
        | .error err => ⟨.error err, [request]⟩
        | .ok data =>
          match Unmarshal RouteRule.decode data {} with
          | .error err => ⟨.error (.json err), [request]⟩
          | .ok routeRule => ⟨.ok routeRule, [request]⟩

def IstioClient.GetTopology (env : Env) (c : IstioClient) : Outcome Topology :=
  let urlStr := "http://" ++ c.serviceGraphService ++ "/graph"
  match NewRequest env "GET" urlStr none with
  | .error err => ⟨.error err, []⟩
  | .ok request =>
    match env.Do request with
    | .error msg => ⟨.error (.transport msg), [request]⟩
    | .ok resp =>
      if resp.StatusCode != 200 then
        ⟨.error (.status "GetTopology" resp.StatusCode), [request]⟩
      else
        match ReadAll resp.Body with
        | .error err => ⟨.error err, [request]⟩
        | .ok data =>
          match Unmarshal Topology.decode data {} with
          | .error err => ⟨.error (.json err), [request]⟩
          | .ok t => ⟨.ok t, [request]⟩

/-! ## `main.go` -/

/-- What a handler returns, `(*ai.Response, error)`, with the requests it caused. -/
structure Handled where
  resp : Option ai.Response
  err : Option Err
  outbound : List HttpRequest

def allowAccess (params : GoMap String) (istioClient : IstioClient) : Handled :=
  let message := "setAccess function was called"
  { resp := some { DisplayText := message, Speech := message, Source := "Istio Action" }
    err := none
    outbound := [] }

def denyAccess (env : Env) (params : GoMap String) (istioClient : IstioClient) : Handled :=
  let to_ := mapIndex "" params "to"
  let from_ := mapIndex "" params "from"
  let call := istioClient.DenyAccess env to_ from_
  match call.result with
  | .error err => { resp := none, err := some err, outbound := call.outbound }
  | .ok _ =>
    let message := "Access to the " ++ to_ ++ " service is prohibited from the " ++ from_ ++
      " service."
    { resp := some { DisplayText := message, Speech := message, Source := "Istio Action" }
      err := none
      outbound := call.outbound }

def getTopology : Handled :=
  let message := "getTopology function was called"
  { resp := some { DisplayText := message, Speech := message, Source := "Istio Action" }
    err := none
    outbound := [] }

def setRoute (params : GoMap String) (istioClient : IstioClient) : Handled :=
  let message := "setRoute function was called"
  { resp := some { DisplayText := message, Speech := message, Source := "Istio Action" }
    err := none
    outbound := [] }

def getRoute (env : Env) (params : GoMap String) (istioClient : IstioClient) : Handled :=
  let name := mapIndex "" params "serviceName"
  let call := istioClient.GetRouteRule env name
  match call.result with
  | .error err => { resp := none, err := some err, outbound := call.outbound }
  | .ok routeRule =>
    let retryCount := routeRule.Spec.HttpReqRetries.SimpleRetry.Attempts
    let message := "The " ++ name ++ " route has HTTP retries set to " ++ toString retryCount
    { resp := some { DisplayText := message, Speech := message, Source := "Istio Action" }
      err := none
      outbound := call.outbound }

structure webhookHandler where
  istioClient : IstioClient

def webhookServer (istioClient : IstioClient) : webhookHandler :=
  { istioClient := istioClient }

/-- The five handler functions of `main.go`. -/
inductive Handler where
  | allowAccess
  | denyAccess
  | getTopology
  | setRoute
  | getRoute
  deriving DecidableEq, Repr

/-- What `ServeHTTP` sends back: `http.Error(w, msg, code)` (the message, which
`http.Error` ends with a newline, as plain text under the status `code`), or the
header it adds and the bytes it writes with `w.Write(out)` (the status is then
the default, 200). -/
inductive Reply where
  | error (msg : String) (code : Nat)
  | written (header : List (String × String)) (out : Json)

/-- The status code of a reply. -/
def Reply.status : Reply → Nat
  | .error _ code => code
  | .written _ _ => 200

/-- One run of `ServeHTTP`: the reply, the handler functions called, and the
requests handed to `httpClient.Do`, both in order. -/
structure Served where
  reply : Reply
  invoked : List Handler
  outbound : List HttpRequest

/-- The `switch action` of `ServeHTTP` (lines 84-95): the handler functions it
calls and the values of `aiResponse` and `err` after it. A Go `switch` on a string
takes the first case equal to it and, without a `default`, does nothing when no
case is; `aiResponse` and `err` are then still nil. -/
def dispatch (env : Env) (h : webhookHandler) (action : String) (parameters : GoMap String) :
    List Handler × Handled :=
  if action = "allowAccess" then ([.allowAccess], allowAccess parameters h.istioClient)
  else if action = "denyAccess" then ([.denyAccess], denyAccess env parameters h.istioClient)
  else if action = "getTopology" then ([.getTopology], getTopology)
  else if action = "setRoute" then ([.setRoute], setRoute parameters h.istioClient)
  else if action = "getRoute" then ([.getRoute], getRoute env parameters h.istioClient)
  else ([], { resp := none, err := none, outbound := [] })

def webhookHandler.ServeHTTP (env : Env) (h : webhookHandler) (body : Body) : Served :=
  match ReadAll body with
  | .error _ => ⟨.error "Failed to read request body" 500, [], []⟩
  | .ok aiRequestData =>
    match Unmarshal ai.Request.decode aiRequestData {} with
    | .error _ => ⟨.error "Failed to decode request body" 500, [], []⟩
    | .ok aiRequest =>
      let action := aiRequest.Result.Action
      let parameters := aiRequest.Result.Parameters
      let (invoked, handled) := dispatch env h action parameters
      match handled.err with
      | some _ => ⟨.error "Failed to perform action" 500, invoked, handled.outbound⟩
      | none =>
        match MarshalIndent handled.resp with
        | .error _ => ⟨.error "unable to marshal response" 500, invoked, handled.outbound⟩
        | .ok out =>
          ⟨.written [("Content-type", "application/json")] out, invoked, handled.outbound⟩

/-! ## Sample data -/

/-- A client with the default addresses of the flags of `main`, empty credentials
and no graph service address. -/
def sampleClient : IstioClient :=
  NewIstioClient "" "" "istio-pilot:8081" "istio-mixer:9094" ""

/-- An inbound body `{"result": {"action": action, "parameters": parameters}}`. -/
def intentBody (action : String) (parameters : List (String × String)) : Body :=
  .bytes (.json (.obj [("result", .obj [("action", .str action),
    ("parameters", .obj (parameters.map (fun p => (p.1, Json.str p.2))))])]))

/-- A control plane that answers every request with the status `code` and the body
`body`, behind a `net/url` that accepts every URL string. -/
def answering (code : Nat) (body : Body) : Env :=
  { urlError := fun _ => none
    Do := fun _ => .ok { StatusCode := code, Body := body } }

/-- Whether every `%` is followed by two hexadecimal digits: the escape check of
`net/url` on the path of a URL. -/
def validEscapes : List Char → Bool
  | [] => true
  | '%' :: a :: b :: rest =>
      (a.isDigit || ('a' ≤ a && a ≤ 'f') || ('A' ≤ a && a ≤ 'F')) &&
      (b.isDigit || ('a' ≤ b && b ≤ 'f') || ('A' ≤ b && b ≤ 'F')) && validEscapes rest
  | '%' :: _ => false
  | _ :: rest => validEscapes rest

/-- A control plane that answers every request with the status `code` and the body
`body`, behind a `net/url` that refuses a URL string with a malformed
percent-escape (`invalid URL escape`) and accepts the others. -/
def answeringStrict (code : Nat) (body : Body) : Env :=
  { urlError := fun u => if validEscapes u.data then none else some "invalid URL escape"
    Do := fun _ => .ok { StatusCode := code, Body := body } }

/-! ## The requests of the spec -/

/-- The URL string of the rule set of the subject `to_` on the policy service:
`/api/v1/scopes/global/subjects/<to>.default.svc.cluster.local/rules` on the
mixer address of the client. -/
def rulesURL (c : IstioClient) (to_ : String) : String :=
  "http://" ++ c.mixerAPIService ++ "/api/v1/scopes/global/subjects/" ++ to_ ++
    ".default.svc.cluster.local/rules"

/-- The grant request of the spec: a `DELETE` of the rule set, without body. -/
def grantRequest (c : IstioClient) (to_ : String) : HttpRequest :=
  { Method := "DELETE", URL := rulesURL c to_, Header := [], BasicAuth := none, Body := none }

/-- The deny request of the spec: a `PUT` of a rule set to the same URL, with the
header `Content-Type: application/json`; the rule set has exactly one rule, its
selector is `source.labels["app"]=="<from>"`, and the rule has exactly one aspect,
of kind `denials`. -/
def denyRequest (c : IstioClient) (to_ from_ : String) : HttpRequest :=
  { Method := "PUT"
    URL := rulesURL c to_
    Header := [("Content-Type", "application/json")]
    BasicAuth := none
    Body := some (.obj [("Rules", .arr [.obj [
      ("Aspects", .arr [.obj [("Kind", .str "denials")]]),
      ("Selector", .str ("source.labels[\"app\"]==\"" ++ from_ ++ "\""))]])]) }

/-- The request of the spec for the route rule of `name` on the config service,
with basic authentication. -/
def routeRuleRequest (c : IstioClient) (name : String) : HttpRequest :=
  { Method := "GET"
    URL := "http://" ++ c.configAPIService ++ "/v1alpha1/config/route-rule/default/" ++
      name ++ "-default"
    Header := []
    BasicAuth := some (c.username, c.password)
    Body := none }

/-- The request of the spec for the topology on the graph service. -/
def topologyRequest (c : IstioClient) : HttpRequest :=
  { Method := "GET"
    URL := "http://" ++ c.serviceGraphService ++ "/graph"
    Header := []
    BasicAuth := none
    Body := none }

/-- A config service that answers every request with status 200 and a route rule
whose retry attempts are `n`. -/
def routeRuleService (n : Int) : Env :=
  answering 200 (.bytes (.json (.obj [
    ("type", .str "route-rule"), ("name", .str "reviews-default"),
    ("spec", .obj [("destination", .str "reviews.default.svc.cluster.local"),
      ("precedence", .int 1),
      ("route", .arr [.obj [("tags", .obj [("version", .str "v1")]), ("weight", .int 100)]]),
      ("httpReqRetries", .obj [("simpleRetry",
        .obj [("attempts", .int n), ("perTryTimeout", .str "2s")])])])])))

/-! ## Route rule documents -/

/-- A JSON value that a Go `string` accepts: a string, or `null`. -/
def isStringValue : Json → Bool
  | .null => true
  | .str _ => true
  | _ => false

/-- A JSON value that a Go `int64` accepts: an integer literal in range, or
`null`. -/
def isInt64Value : Json → Bool
  | .null => true
  | .int i => decide (inInt64 i)
  | _ => false

/-- A JSON object (or `null`) all of whose members satisfy `fits`. -/
def isObjectWith (fits : String → Json → Bool) : Json → Bool
  | .null => true
  | .obj kvs => kvs.all (fun kv => fits kv.1 kv.2)
  | _ => false

/-- A JSON array (or `null`) all of whose elements satisfy `fits`. -/
def isArrayOf (fits : Json → Bool) : Json → Bool
  | .null => true
  | .arr xs => xs.all fits
  | _ => false

/-- A member of a `simpleRetry` object: an integer under `attempts`, a string
under `perTryTimeout`, anything under another key. -/
def SimpleRetry.fits (key : String) (x : Json) : Bool :=
  if fieldMatch key "Attempts" then isInt64Value x
  else if fieldMatch key "PerTryTimeout" then isStringValue x
  else true

def SimpleTimeout.fits (key : String) (x : Json) : Bool :=
  if fieldMatch key "Timeout" then isStringValue x else true

def HttpReqRetries.fits (key : String) (x : Json) : Bool :=
  if fieldMatch key "SimpleRetry" then isObjectWith SimpleRetry.fits x else true

def HttpReqTimeout.fits (key : String) (x : Json) : Bool :=
  if fieldMatch key "SimpleTimeout" then isObjectWith SimpleTimeout.fits x else true

def Route.fits (key : String) (x : Json) : Bool :=
  if fieldMatch key "Tags" then isObjectWith (fun _ v => isStringValue v) x
  else if fieldMatch key "Weight" then isInt64Value x
  else true

def RouteSpec.fits (key : String) (x : Json) : Bool :=
  if fieldMatch key "Destination" then isStringValue x
  else if fieldMatch key "HttpReqRetries" then isObjectWith HttpReqRetries.fits x
  else if fieldMatch key "HttpReqTimeout" then isObjectWith HttpReqTimeout.fits x
  else if fieldMatch key "Precedence" then isInt64Value x
  else if fieldMatch key "Route" then isArrayOf (isObjectWith Route.fits) x
  else true

def RouteRule.fits (key : String) (x : Json) : Bool :=
  if fieldMatch key "Type" then isStringValue x
  else if fieldMatch key "Name" then isStringValue x
  else if fieldMatch key "Spec" then isObjectWith RouteSpec.fits x
  else true

/-- A route rule document: a JSON object in which every member that names a
field of `RouteRule`, at any depth, holds a JSON value of the kind of that field
(string, integer in the `int64` range, object, array, or `null`). Members under
other keys are free. -/
def isRouteRuleDocument (doc : Json) : Bool :=
  isObjectWith RouteRule.fits doc

/-- The value of the last member of an object whose key names the field `name`. -/
def lastField (name : String) : List (String × Json) → Option Json
  | [] => none
  | kv :: rest =>
      match lastField name rest with
      | some x => some x
      | none => if fieldMatch kv.1 name then some kv.2 else none

/-- The member `name` of a JSON object. -/
def Json.field (name : String) : Json → Option Json
  | .obj kvs => lastField name kvs
  | _ => none

/-- The integer literal a document holds at
`spec.httpReqRetries.simpleRetry.attempts`. -/
def attemptsLiteral (doc : Json) : Option Int :=
  match (((doc.field "Spec").bind (Json.field "HttpReqRetries")).bind
      (Json.field "SimpleRetry")).bind (Json.field "Attempts") with
  | some (.int n) => some n
  | _ => none

/-! ## Properties -/

/-! ### The dispatcher -/

theorem ServeHTTP_invoked (env : Env) (h : webhookHandler) (data : Data)
    (aiRequest : ai.Request)
    (hdec : Unmarshal ai.Request.decode data {} = .ok aiRequest) :
    (h.ServeHTTP env (.bytes data)).invoked =
      (dispatch env h aiRequest.Result.Action aiRequest.Result.Parameters).1 := by
  simp only [webhookHandler.ServeHTTP, ReadAll, hdec]
  cases hd : (dispatch env h aiRequest.Result.Action aiRequest.Result.Parameters).2.err with
  | some e => simp [hd]
  | none =>
    simp only [hd]
    cases (dispatch env h aiRequest.Result.Action aiRequest.Result.Parameters).2.resp <;>
      simp [MarshalIndent]

theorem ServeHTTP_outbound (env : Env) (h : webhookHandler) (data : Data)
    (aiRequest : ai.Request)
    (hdec : Unmarshal ai.Request.decode data {} = .ok aiRequest) :
    (h.ServeHTTP env (.bytes data)).outbound =
      (dispatch env h aiRequest.Result.Action aiRequest.Result.Parameters).2.outbound := by
  simp only [webhookHandler.ServeHTTP, ReadAll, hdec]
  cases hd : (dispatch env h aiRequest.Result.Action aiRequest.Result.Parameters).2.err with
  | some e => simp [hd]
  | none =>
    simp only [hd]
    cases (dispatch env h aiRequest.Result.Action aiRequest.Result.Parameters).2.resp <;>
      simp [MarshalIndent]

theorem ServeHTTP_reply_of_err (env : Env) (h : webhookHandler) (data : Data)
    (aiRequest : ai.Request) (e : Err)
    (hdec : Unmarshal ai.Request.decode data {} = .ok aiRequest)
    (herr : (dispatch env h aiRequest.Result.Action aiRequest.Result.Parameters).2.err = some e) :
    (h.ServeHTTP env (.bytes data)).reply = .error "Failed to perform action" 500 := by
  simp [webhookHandler.ServeHTTP, ReadAll, hdec, herr]

theorem ServeHTTP_reply_of_ok (env : Env) (h : webhookHandler) (data : Data)
    (aiRequest : ai.Request)
    (hdec : Unmarshal ai.Request.decode data {} = .ok aiRequest)
    (herr : (dispatch env h aiRequest.Result.Action aiRequest.Result.Parameters).2.err = none) :
    (h.ServeHTTP env (.bytes data)).reply =
      .written [("Content-type", "application/json")]
        (match (dispatch env h aiRequest.Result.Action aiRequest.Result.Parameters).2.resp with
          | none => Json.null
          | some r => r.encode) := by
  simp only [webhookHandler.ServeHTTP, ReadAll, hdec, herr]
  cases (dispatch env h aiRequest.Result.Action aiRequest.Result.Parameters).2.resp <;>
    simp [MarshalIndent]

/-- C1 (as stated, refuted). The action identifier `allow-access`, and likewise
`deny-access`, `get-topology`, `set-route` and `get-route`, is none of the strings
the `switch` of `ServeHTTP` compares with: the dispatcher calls no handler for
it, so not the handler `allowAccess`. -/
theorem hyphenated_action_invokes_no_handler :
    ((webhookServer sampleClient).ServeHTTP (answering 200 (.bytes (.json .null)))
        (intentBody "allow-access" [])).invoked = [] ∧
    ((webhookServer sampleClient).ServeHTTP (answering 200 (.bytes (.json .null)))
        (intentBody "allow-access" [])).invoked ≠ [Handler.allowAccess] ∧
    ((webhookServer sampleClient).ServeHTTP (answering 200 (.bytes (.json .null)))
        (intentBody "deny-access" [("to", "reviews"), ("from", "ratings")])).invoked = [] ∧
    ((webhookServer sampleClient).ServeHTTP (answering 200 (.bytes (.json .null)))
        (intentBody "get-topology" [])).invoked = [] ∧
    ((webhookServer sampleClient).ServeHTTP (answering 200 (.bytes (.json .null)))
        (intentBody "set-route" [])).invoked = [] ∧
    ((webhookServer sampleClient).ServeHTTP (answering 200 (.bytes (.json .null)))
        (intentBody "get-route" [("serviceName", "reviews")])).invoked = [] := by
  decide

/-- C1 (amended). For every inbound body that decodes to an intent record whose
action is one of `allowAccess`, `denyAccess`, `getTopology`, `setRoute`,
`getRoute`, whatever the parameter mapping, the client and the control plane,
`ServeHTTP` calls exactly the handler function of that name, once, and none of
the other four. -/
theorem camelCase_action_invokes_matching_handler (env : Env) (h : webhookHandler)
    (data : Data) (aiRequest : ai.Request)
    (hdec : Unmarshal ai.Request.decode data {} = .ok aiRequest) :
    (aiRequest.Result.Action = "allowAccess" →
      (h.ServeHTTP env (.bytes data)).invoked = [Handler.allowAccess]) ∧
    (aiRequest.Result.Action = "denyAccess" →
      (h.ServeHTTP env (.bytes data)).invoked = [Handler.denyAccess]) ∧
    (aiRequest.Result.Action = "getTopology" →
      (h.ServeHTTP env (.bytes data)).invoked = [Handler.getTopology]) ∧
    (aiRequest.Result.Action = "setRoute" →
      (h.ServeHTTP env (.bytes data)).invoked = [Handler.setRoute]) ∧
    (aiRequest.Result.Action = "getRoute" →
      (h.ServeHTTP env (.bytes data)).invoked = [Handler.getRoute]) := by
  rw [ServeHTTP_invoked env h data aiRequest hdec]
  refine ⟨?_, ?_, ?_, ?_, ?_⟩ <;> intro ha <;> simp [dispatch, ha]

/-- C1 (amended), at the five actions with the parameters `to = reviews`,
`from = ratings`, `serviceName = reviews`. -/
theorem camelCase_action_invokes_matching_handler_witness :
    ((webhookServer sampleClient).ServeHTTP (answering 200 (.bytes (.json .null)))
        (intentBody "allowAccess" [("to", "reviews"), ("from", "ratings")])).invoked
      = [Handler.allowAccess] ∧
    ((webhookServer sampleClient).ServeHTTP (answering 200 (.bytes (.json .null)))
        (intentBody "denyAccess" [("to", "reviews"), ("from", "ratings")])).invoked
      = [Handler.denyAccess] ∧
    ((webhookServer sampleClient).ServeHTTP (answering 200 (.bytes (.json .null)))
        (intentBody "getTopology" [])).invoked = [Handler.getTopology] ∧
    ((webhookServer sampleClient).ServeHTTP (answering 200 (.bytes (.json .null)))
        (intentBody "setRoute" [])).invoked = [Handler.setRoute] ∧
    ((webhookServer sampleClient).ServeHTTP (answering 200 (.bytes (.json .null)))
        (intentBody "getRoute" [("serviceName", "reviews")])).invoked = [Handler.getRoute] :=
  ⟨(camelCase_action_invokes_matching_handler (answering 200 (.bytes (.json .null)))
      (webhookServer sampleClient) _
      ⟨⟨"allowAccess", [("from", "ratings"), ("to", "reviews")]⟩⟩ (by rfl)).1 rfl,
   (camelCase_action_invokes_matching_handler (answering 200 (.bytes (.json .null)))
      (webhookServer sampleClient) _
      ⟨⟨"denyAccess", [("from", "ratings"), ("to", "reviews")]⟩⟩ (by rfl)).2.1 rfl,
   (camelCase_action_invokes_matching_handler (answering 200 (.bytes (.json .null)))
      (webhookServer sampleClient) _
      ⟨⟨"getTopology", []⟩⟩ (by rfl)).2.2.1 rfl,
   (camelCase_action_invokes_matching_handler (answering 200 (.bytes (.json .null)))
      (webhookServer sampleClient) _
      ⟨⟨"setRoute", []⟩⟩ (by rfl)).2.2.2.1 rfl,
   (camelCase_action_invokes_matching_handler (answering 200 (.bytes (.json .null)))
      (webhookServer sampleClient) _
      ⟨⟨"getRoute", [("serviceName", "reviews")]⟩⟩ (by rfl)).2.2.2.2 rfl⟩

/-- C7 (as stated, refuted). For the unhandled action `reboot` the serialization
of the nil response does not fail: `json.MarshalIndent` writes a nil pointer as
`null`, and the request is answered with the JSON body `null` under status 200,
not with the 500 of the serialization error. -/
theorem unmatched_action_is_answered_with_null :
    MarshalIndent none = .ok Json.null ∧
    ((webhookServer sampleClient).ServeHTTP (answering 200 (.bytes (.json .null)))
        (intentBody "reboot" [("to", "reviews")])).reply.status = 200 ∧
    ((webhookServer sampleClient).ServeHTTP (answering 200 (.bytes (.json .null)))
        (intentBody "reboot" [("to", "reviews")])).reply.status ≠ 500 := by
  refine ⟨rfl, ?_, ?_⟩ <;> decide

/-- C7 (amended). For every inbound body that decodes to an intent record whose
action is none of the five handled identifiers, whatever the parameter mapping:
the `switch` calls no handler and leaves the response and the error nil, no
request goes out, the nil response is serialized to `null` without error, and
the reply is the written JSON `null` with the header `Content-type:
application/json` under status 200. -/
theorem unmatched_action_falls_through (env : Env) (h : webhookHandler)
    (data : Data) (aiRequest : ai.Request)
    (hdec : Unmarshal ai.Request.decode data {} = .ok aiRequest)
    (h1 : aiRequest.Result.Action ≠ "allowAccess")
    (h2 : aiRequest.Result.Action ≠ "denyAccess")
    (h3 : aiRequest.Result.Action ≠ "getTopology")
    (h4 : aiRequest.Result.Action ≠ "setRoute")
    (h5 : aiRequest.Result.Action ≠ "getRoute") :
    (h.ServeHTTP env (.bytes data)).invoked = [] ∧
    (h.ServeHTTP env (.bytes data)).outbound = [] ∧
    (dispatch env h aiRequest.Result.Action aiRequest.Result.Parameters).2.resp = none ∧
    (dispatch env h aiRequest.Result.Action aiRequest.Result.Parameters).2.err = none ∧
    MarshalIndent (dispatch env h aiRequest.Result.Action aiRequest.Result.Parameters).2.resp
      = .ok Json.null ∧
    (h.ServeHTTP env (.bytes data)).reply
      = .written [("Content-type", "application/json")] Json.null ∧
    (h.ServeHTTP env (.bytes data)).reply.status = 200 := by
  have hd : dispatch env h aiRequest.Result.Action aiRequest.Result.Parameters
      = ([], { resp := none, err := none, outbound := [] }) := by
    simp [dispatch, h1, h2, h3, h4, h5]
  have hr := ServeHTTP_reply_of_ok env h data aiRequest hdec (by rw [hd])
  rw [hd] at hr
  refine ⟨?_, ?_, ?_, ?_, ?_, hr, ?_⟩
  · rw [ServeHTTP_invoked env h data aiRequest hdec, hd]
  · rw [ServeHTTP_outbound env h data aiRequest hdec, hd]
  · rw [hd]
  · rw [hd]
  · rw [hd]; rfl
  · rw [hr]; rfl

/-- C7 (amended), at the action `reboot`. -/
theorem unmatched_action_falls_through_witness :
    ((webhookServer sampleClient).ServeHTTP (answering 200 (.bytes (.json .null)))
        (intentBody "reboot" [("to", "reviews")])).invoked = [] ∧
    ((webhookServer sampleClient).ServeHTTP (answering 200 (.bytes (.json .null)))
        (intentBody "reboot" [("to", "reviews")])).outbound = [] ∧
    ((webhookServer sampleClient).ServeHTTP (answering 200 (.bytes (.json .null)))
        (intentBody "reboot" [("to", "reviews")])).reply
      = .written [("Content-type", "application/json")] Json.null :=
  have w := unmatched_action_falls_through (answering 200 (.bytes (.json .null)))
    (webhookServer sampleClient) _ ⟨⟨"reboot", [("to", "reviews")]⟩⟩ (by rfl)
    (by decide) (by decide) (by decide) (by decide) (by decide)
  ⟨w.1, w.2.1, w.2.2.2.2.2.1⟩

/-- C5. For every inbound body that does not decode into the intent record (its
bytes cannot be read, are not well-formed JSON, or hold a document that does not
fit the record), whatever the client and the control plane: `ServeHTTP` answers
through `http.Error` with status 500, calls none of the five handlers and hands
no request to `httpClient.Do`. -/
theorem undecodable_body_is_refused (env : Env) (h : webhookHandler) (body : Body)
    (hbad : ∀ data aiRequest, ReadAll body = .ok data →
      Unmarshal ai.Request.decode data {} ≠ .ok aiRequest) :
    (h.ServeHTTP env body).reply.status = 500 ∧
    (∃ msg, (h.ServeHTTP env body).reply = .error msg 500) ∧
    (h.ServeHTTP env body).invoked = [] ∧
    (h.ServeHTTP env body).outbound = [] := by
  cases hr : ReadAll body with
  | error e => simp [webhookHandler.ServeHTTP, hr, Reply.status]
  | ok data =>
    cases hu : Unmarshal ai.Request.decode data {} with
    | error e => simp [webhookHandler.ServeHTTP, hr, hu, Reply.status]
    | ok aiRequest => exact absurd hu (hbad data aiRequest hr)

/-- C5, at three bodies: bytes that are not JSON, a JSON string where the record
is expected, and a record whose action is a number. Each is answered with 500 and
the text `Failed to decode request body`. -/
theorem undecodable_body_is_refused_witness :
    ((webhookServer sampleClient).ServeHTTP (answering 200 (.bytes (.json .null)))
        (.bytes (.garbage "result=denyAccess"))).reply
      = .error "Failed to decode request body" 500 ∧
    ((webhookServer sampleClient).ServeHTTP (answering 200 (.bytes (.json .null)))
        (.bytes (.garbage "result=denyAccess"))).reply.status = 500 ∧
    ((webhookServer sampleClient).ServeHTTP (answering 200 (.bytes (.json .null)))
        (.bytes (.garbage "result=denyAccess"))).invoked = [] ∧
    ((webhookServer sampleClient).ServeHTTP (answering 200 (.bytes (.json .null)))
        (.bytes (.json (.str "denyAccess")))).outbound = [] ∧
    ((webhookServer sampleClient).ServeHTTP (answering 200 (.bytes (.json .null)))
        (.bytes (.json (.obj [("result", .obj [("action", .int 7)])])))).invoked = [] :=
  have w1 := undecodable_body_is_refused (answering 200 (.bytes (.json .null)))
    (webhookServer sampleClient) (.bytes (.garbage "result=denyAccess"))
    (by intro data aiRequest hr; cases hr; simp [Unmarshal])
  have w2 := undecodable_body_is_refused (answering 200 (.bytes (.json .null)))
    (webhookServer sampleClient) (.bytes (.json (.str "denyAccess")))
    (by intro data aiRequest hr; cases hr; simp [Unmarshal, ai.Request.decode, decodeStruct])
  have w3 := undecodable_body_is_refused (answering 200 (.bytes (.json .null)))
    (webhookServer sampleClient)
    (.bytes (.json (.obj [("result", .obj [("action", .int 7)])])))
    (by intro data aiRequest hr; cases hr; intro hu; cases hu)
  ⟨rfl, w1.1, w1.2.2.1, w2.2.2.2, w3.2.2.1⟩

/-! ### The handlers -/

/-- C9. For every parameter mapping, every client and every control plane, the
handlers `allowAccess`, `getTopology` and `setRoute` return a nil error, cause no
outbound request, and return one fixed response each (`Speech` and `DisplayText`
the same fixed sentence, `Source` the text `Istio Action`), which mentions
neither the parameters nor the client; the same holds when they are reached
through the `switch` of the dispatcher. In particular `allowAccess` hands no
request, so no `DELETE` of a rule set, to `httpClient.Do`. -/
theorem stub_handlers_are_fixed_and_silent (env : Env) (h : webhookHandler)
    (params : GoMap String) (istioClient : IstioClient) :
    (allowAccess params istioClient).resp = some
      { Speech := "setAccess function was called"
        DisplayText := "setAccess function was called"
        Source := "Istio Action" } ∧
    (allowAccess params istioClient).err = none ∧
    (allowAccess params istioClient).outbound = [] ∧
    getTopology.resp = some
      { Speech := "getTopology function was called"
        DisplayText := "getTopology function was called"
        Source := "Istio Action" } ∧
    getTopology.err = none ∧
    getTopology.outbound = [] ∧
    (setRoute params istioClient).resp = some
      { Speech := "setRoute function was called"
        DisplayText := "setRoute function was called"
        Source := "Istio Action" } ∧
    (setRoute params istioClient).err = none ∧
    (setRoute params istioClient).outbound = [] ∧
    (dispatch env h "allowAccess" params).2.outbound = [] ∧
    (dispatch env h "allowAccess" params).2.err = none ∧
    (dispatch env h "getTopology" params).2.outbound = [] ∧
    (dispatch env h "getTopology" params).2.err = none ∧
    (dispatch env h "setRoute" params).2.outbound = [] ∧
    (dispatch env h "setRoute" params).2.err = none := by
  refine ⟨rfl, rfl, rfl, rfl, rfl, rfl, rfl, rfl, rfl, ?_, ?_, ?_, ?_, ?_, ?_⟩ <;>
    simp [dispatch, allowAccess, getTopology, setRoute]

/-! ### The client -/

theorem AllowAccess_eq (env : Env) (c : IstioClient) (to_ from_ : String)
    (hurl : env.urlError (rulesURL c to_) = none) :
    c.AllowAccess env to_ from_ =
      match env.Do (grantRequest c to_) with
      | .error msg => ⟨.error (.transport msg), [grantRequest c to_]⟩
      | .ok resp =>
        if resp.StatusCode = 200 then ⟨.ok (), [grantRequest c to_]⟩
        else ⟨.error (.status "AllowAccess" resp.StatusCode), [grantRequest c to_]⟩ := by
  unfold rulesURL at hurl
  simp only [IstioClient.AllowAccess, NewRequest, hurl, grantRequest, rulesURL]
  cases env.Do _ with
  | error msg => rfl
  | ok resp => by_cases hs : resp.StatusCode = 200 <;> simp [hs]

theorem DenyAccess_eq (env : Env) (c : IstioClient) (to_ from_ : String)
    (hurl : env.urlError (rulesURL c to_) = none) :
    c.DenyAccess env to_ from_ =
      match env.Do (denyRequest c to_ from_) with
      | .error msg => ⟨.error (.transport msg), [denyRequest c to_ from_]⟩
      | .ok resp =>
        if resp.StatusCode = 200 then ⟨.ok (), [denyRequest c to_ from_]⟩
        else ⟨.error (.status "DenyAccess" resp.StatusCode), [denyRequest c to_ from_]⟩ := by
  unfold rulesURL at hurl
  simp only [IstioClient.DenyAccess, Marshal, NewRequest, hurl, denyRequest, rulesURL,
    MixerRule.encode, Rule.encode, Aspect.encode, List.map, List.nil_append]
  cases env.Do _ with
  | error msg => rfl
  | ok resp => by_cases hs : resp.StatusCode = 200 <;> simp [hs]

theorem GetRouteRule_eq (env : Env) (c : IstioClient) (name : String)
    (hurl : env.urlError (routeRuleRequest c name).URL = none) :
    c.GetRouteRule env name =
      match env.Do (routeRuleRequest c name) with
      | .error msg => ⟨.error (.transport msg), [routeRuleRequest c name]⟩
      | .ok resp =>
        if resp.StatusCode = 200 then
          match ReadAll resp.Body with
          | .error err => ⟨.error err, [routeRuleRequest c name]⟩
          | .ok data =>
            match Unmarshal RouteRule.decode data {} with
            | .error err => ⟨.error (.json err), [routeRuleRequest c name]⟩
            | .ok routeRule => ⟨.ok routeRule, [routeRuleRequest c name]⟩
        else ⟨.error (.status "GetRouteRule" resp.StatusCode), [routeRuleRequest c name]⟩ := by
  unfold routeRuleRequest at hurl
  simp only [IstioClient.GetRouteRule, NewRequest, hurl, routeRuleRequest]
  cases env.Do _ with
  | error msg => rfl
  | ok resp => by_cases hs : resp.StatusCode = 200 <;> simp [hs]

theorem GetTopology_eq (env : Env) (c : IstioClient)
    (hurl : env.urlError (topologyRequest c).URL = none) :
    c.GetTopology env =
      match env.Do (topologyRequest c) with
      | .error msg => ⟨.error (.transport msg), [topologyRequest c]⟩
      | .ok resp =>
        if resp.StatusCode = 200 then
          match ReadAll resp.Body with
          | .error err => ⟨.error err, [topologyRequest c]⟩
          | .ok data =>
            match Unmarshal Topology.decode data {} with
            | .error err => ⟨.error (.json err), [topologyRequest c]⟩
            | .ok t => ⟨.ok t, [topologyRequest c]⟩
        else ⟨.error (.status "GetTopology" resp.StatusCode), [topologyRequest c]⟩ := by
  unfold topologyRequest at hurl
  simp only [IstioClient.GetTopology, NewRequest, hurl, topologyRequest]
  cases env.Do _ with
  | error msg => rfl
  | ok resp => by_cases hs : resp.StatusCode = 200 <;> simp [hs]

theorem ReadAll_ne_status (body : Body) (op : String) (code : Nat) :
    ReadAll body ≠ .error (.status op code) := by
  cases body <;> simp [ReadAll]

/-- C6 (as stated, refuted). The status 204 is a 2xx code, and each of the four
operations returns the status error for it, with the text `... non-200 status
code: 204`. -/
theorem status_204_is_a_status_error :
    (200 ≤ 204 ∧ 204 ≤ 299) ∧
    (sampleClient.AllowAccess (answering 204 (.bytes (.garbage ""))) "reviews" "ratings").result
      = .error (.status "AllowAccess" 204) ∧
    (sampleClient.DenyAccess (answering 204 (.bytes (.garbage ""))) "reviews" "ratings").result
      = .error (.status "DenyAccess" 204) ∧
    (sampleClient.GetRouteRule (answering 204 (.bytes (.garbage ""))) "reviews").result
      = .error (.status "GetRouteRule" 204) ∧
    (sampleClient.GetTopology (answering 204 (.bytes (.garbage "")))).result
      = .error (.status "GetTopology" 204) ∧
    (Err.status "AllowAccess" 204).Error = "AllowAccess error: non-200 status code: 204" := by
  refine ⟨by decide, rfl, rfl, rfl, rfl, by decide⟩

/-- C6 (amended). For every status code `s` with which the control plane answers
(no URL refused, no transport failure), each of `AllowAccess`, `DenyAccess`,
`GetRouteRule` and `GetTopology` returns its status error if and only if `s` is
not 200; the text of that error is `<op> error: non-200 status code: ` followed by
`s` in decimal. -/
theorem status_error_iff_not_200 (env : Env) (c : IstioClient) (to_ from_ name : String)
    (s : Nat) (hurl : ∀ u, env.urlError u = none)
    (hdo : ∀ request, ∃ resp, env.Do request = .ok resp ∧ resp.StatusCode = s) :
    ((c.AllowAccess env to_ from_).result = .error (.status "AllowAccess" s) ↔ s ≠ 200) ∧
    ((c.DenyAccess env to_ from_).result = .error (.status "DenyAccess" s) ↔ s ≠ 200) ∧
    ((c.GetRouteRule env name).result = .error (.status "GetRouteRule" s) ↔ s ≠ 200) ∧
    ((c.GetTopology env).result = .error (.status "GetTopology" s) ↔ s ≠ 200) ∧
    (∀ op, (Err.status op s).Error = op ++ " error: non-200 status code: " ++ toString s) := by
  refine ⟨?_, ?_, ?_, ?_, fun _ => rfl⟩
  · rw [AllowAccess_eq env c to_ from_ (hurl _)]
    obtain ⟨resp, hr, hs⟩ := hdo (grantRequest c to_)
    by_cases h200 : s = 200 <;> simp [hr, hs, h200]
  · rw [DenyAccess_eq env c to_ from_ (hurl _)]
    obtain ⟨resp, hr, hs⟩ := hdo (denyRequest c to_ from_)
    by_cases h200 : s = 200 <;> simp [hr, hs, h200]
  · rw [GetRouteRule_eq env c name (hurl _)]
    obtain ⟨resp, hr, hs⟩ := hdo (routeRuleRequest c name)
    by_cases h200 : s = 200
    · simp only [hr, hs, h200, if_true, ne_eq, not_true_eq_false, iff_false]
      cases hb : ReadAll resp.Body with
      | error err =>
        intro h
        exact ReadAll_ne_status resp.Body "GetRouteRule" 200 (by rw [hb]; simpa using h)
      | ok data => simp only []; split <;> simp
    · simp [hr, hs, h200]
  · rw [GetTopology_eq env c (hurl _)]
    obtain ⟨resp, hr, hs⟩ := hdo (topologyRequest c)
    by_cases h200 : s = 200
    · simp only [hr, hs, h200, if_true, ne_eq, not_true_eq_false, iff_false]
      cases hb : ReadAll resp.Body with
      | error err =>
        intro h
        exact ReadAll_ne_status resp.Body "GetTopology" 200 (by rw [hb]; simpa using h)
      | ok data => simp only []; split <;> simp
    · simp [hr, hs, h200]

/-- C6 (amended), at the statuses 503 (an error), 204 (an error) and 200 (none). -/
theorem status_error_iff_not_200_witness :
    (sampleClient.AllowAccess (answering 503 (.bytes (.garbage "busy"))) "reviews" "ratings").result
      = .error (.status "AllowAccess" 503) ∧
    (sampleClient.GetRouteRule (answering 204 (.bytes (.garbage ""))) "reviews").result
      = .error (.status "GetRouteRule" 204) ∧
    (sampleClient.DenyAccess (answering 200 (.bytes (.garbage ""))) "reviews" "ratings").result
      ≠ .error (.status "DenyAccess" 200) ∧
    (Err.status "GetTopology" 503).Error = "GetTopology error: non-200 status code: 503" :=
  ⟨(status_error_iff_not_200 (answering 503 (.bytes (.garbage "busy"))) sampleClient
      "reviews" "ratings" "reviews" 503 (fun _ => rfl) (fun _ => ⟨_, rfl, rfl⟩)).1.mpr
      (by decide),
   (status_error_iff_not_200 (answering 204 (.bytes (.garbage ""))) sampleClient
      "reviews" "ratings" "reviews" 204 (fun _ => rfl) (fun _ => ⟨_, rfl, rfl⟩)).2.2.1.mpr
      (by decide),
   fun h => (status_error_iff_not_200 (answering 200 (.bytes (.garbage ""))) sampleClient
      "reviews" "ratings" "reviews" 200 (fun _ => rfl) (fun _ => ⟨_, rfl, rfl⟩)).2.1.mp h rfl,
   by decide⟩

/-- C10 (as stated, refuted). For `to = %zz` the URL string holds a malformed
percent-escape; behind a `net/url` that refuses it, `http.NewRequest` fails and
`AllowAccess` returns that error without handing any request to
`httpClient.Do`: it issues no request, not exactly one. -/
theorem AllowAccess_bad_escape_issues_no_request :
    (sampleClient.AllowAccess (answeringStrict 200 (.bytes (.garbage ""))) "%zz"
        "ratings").outbound = [] ∧
    (sampleClient.AllowAccess (answeringStrict 200 (.bytes (.garbage ""))) "%zz"
        "ratings").result = .error (.url "invalid URL escape") := by
  exact ⟨rfl, rfl⟩

/-- C10 (amended). For every `to` and `from` such that `http.NewRequest` accepts
the URL string `http://<mixer>/api/v1/scopes/global/subjects/<to>.default.svc.cluster.local/rules`,
`AllowAccess(to, from)` hands exactly one request to `httpClient.Do`: a `DELETE`
of that URL without body; `DenyAccess(to, from')` hands, for every `from'`,
exactly one request, a `PUT` of the same URL; the whole outcome of `AllowAccess`
is the same for every `from`; and `AllowAccess` returns no error when the
response has status 200. -/
theorem AllowAccess_deletes_the_rule_set (env : Env) (c : IstioClient) (to_ from_ : String)
    (hurl : env.urlError (rulesURL c to_) = none) :
    (c.AllowAccess env to_ from_).outbound = [grantRequest c to_] ∧
    (grantRequest c to_).Method = "DELETE" ∧
    (grantRequest c to_).Body = none ∧
    (grantRequest c to_).URL = "http://" ++ c.mixerAPIService ++
      "/api/v1/scopes/global/subjects/" ++ to_ ++ ".default.svc.cluster.local/rules" ∧
    (∀ from', (c.DenyAccess env to_ from').outbound = [denyRequest c to_ from'] ∧
      (denyRequest c to_ from').Method = "PUT" ∧
      (denyRequest c to_ from').URL = (grantRequest c to_).URL) ∧
    (∀ from', c.AllowAccess env to_ from' = c.AllowAccess env to_ from_) ∧
    (∀ resp, env.Do (grantRequest c to_) = .ok resp → resp.StatusCode = 200 →
      (c.AllowAccess env to_ from_).result = .ok ()) := by
  refine ⟨?_, rfl, rfl, rfl, ?_, fun _ => rfl, ?_⟩
  · rw [AllowAccess_eq env c to_ from_ hurl]
    cases env.Do (grantRequest c to_) with
    | error msg => rfl
    | ok resp => by_cases hs : resp.StatusCode = 200 <;> simp [hs]
  · intro from'
    refine ⟨?_, rfl, rfl⟩
    rw [DenyAccess_eq env c to_ from' hurl]
    cases env.Do (denyRequest c to_ from') with
    | error msg => rfl
    | ok resp => by_cases hs : resp.StatusCode = 200 <;> simp [hs]
  · intro resp hr hs
    rw [AllowAccess_eq env c to_ from_ hurl]
    simp [hr, hs]

/-- C10 (amended), at `to = reviews`, `from = ratings` and a control plane
answering 200. -/
theorem AllowAccess_deletes_the_rule_set_witness :
    (answering 200 (.bytes (.garbage ""))).urlError (rulesURL sampleClient "reviews") = none ∧
    (sampleClient.AllowAccess (answering 200 (.bytes (.garbage ""))) "reviews"
        "ratings").outbound = [grantRequest sampleClient "reviews"] ∧
    (grantRequest sampleClient "reviews").URL =
      "http://istio-mixer:9094/api/v1/scopes/global/subjects/reviews.default.svc.cluster.local/rules" ∧
    (sampleClient.AllowAccess (answering 200 (.bytes (.garbage ""))) "reviews"
        "ratings").result = .ok () :=
  have w := AllowAccess_deletes_the_rule_set (answering 200 (.bytes (.garbage "")))
    sampleClient "reviews" "ratings" rfl
  ⟨rfl, w.1, by decide, w.2.2.2.2.2.2 _ rfl rfl⟩

/-- C2 (as stated, refuted). For `to = %zz` the URL string holds a malformed
percent-escape; behind a `net/url` that refuses it, `http.NewRequest` fails and
the handler `denyAccess` returns that error and a nil response without handing
any request to `httpClient.Do`: it issues no `PUT`, not exactly one. -/
theorem denyAccess_bad_escape_issues_no_request :
    (denyAccess (answeringStrict 200 (.bytes (.garbage "")))
        [("to", "%zz"), ("from", "ratings")] sampleClient).outbound = [] ∧
    (denyAccess (answeringStrict 200 (.bytes (.garbage "")))
        [("to", "%zz"), ("from", "ratings")] sampleClient).err
      = some (.url "invalid URL escape") ∧
    (denyAccess (answeringStrict 200 (.bytes (.garbage "")))
        [("to", "%zz"), ("from", "ratings")] sampleClient).resp = none := by
  exact ⟨rfl, rfl, rfl⟩

/-- C2 (amended). For every parameter mapping with `to` and `from` such that
`http.NewRequest` accepts the URL string
`http://<mixer>/api/v1/scopes/global/subjects/<to>.default.svc.cluster.local/rules`,
the handler `denyAccess` hands exactly one request to `httpClient.Do`: a `PUT`
of that URL with the header `Content-Type: application/json`, whose body is a
rule set of exactly one rule with the selector `source.labels["app"]=="<from>"`
and exactly one aspect, of kind `denials`; and when the response has status 200
the handler returns a nil error and a response whose `Speech` and `DisplayText`
are both `Access to the <to> service is prohibited from the <from> service.` -/
theorem denyAccess_puts_one_denial_rule (env : Env) (c : IstioClient)
    (params : GoMap String) (to_ from_ : String)
    (hto : mapIndex "" params "to" = to_) (hfrom : mapIndex "" params "from" = from_)
    (hurl : env.urlError (rulesURL c to_) = none) :
    (denyAccess env params c).outbound = [denyRequest c to_ from_] ∧
    (∀ resp, env.Do (denyRequest c to_ from_) = .ok resp → resp.StatusCode = 200 →
      (denyAccess env params c).err = none ∧
      (denyAccess env params c).resp = some
        { Speech := "Access to the " ++ to_ ++ " service is prohibited from the " ++ from_ ++
            " service."
          DisplayText := "Access to the " ++ to_ ++ " service is prohibited from the " ++
            from_ ++ " service."
          Source := "Istio Action" }) := by
  have hd := DenyAccess_eq env c to_ from_ hurl
  constructor
  · simp only [denyAccess, hto, hfrom, hd]
    cases env.Do (denyRequest c to_ from_) with
    | error msg => rfl
    | ok resp => by_cases hs : resp.StatusCode = 200 <;> simp [hs]
  · intro resp hr hs
    simp [denyAccess, hto, hfrom, hd, hr, hs]

/-- C2 (amended), at `to = reviews`, `from = ratings` and a control plane
answering 200. -/
theorem denyAccess_puts_one_denial_rule_witness :
    (denyAccess (answering 200 (.bytes (.garbage "")))
        [("to", "reviews"), ("from", "ratings")] sampleClient).outbound
      = [denyRequest sampleClient "reviews" "ratings"] ∧
    (denyRequest sampleClient "reviews" "ratings").URL =
      "http://istio-mixer:9094/api/v1/scopes/global/subjects/reviews.default.svc.cluster.local/rules" ∧
    (denyAccess (answering 200 (.bytes (.garbage "")))
        [("to", "reviews"), ("from", "ratings")] sampleClient).err = none ∧
    (denyAccess (answering 200 (.bytes (.garbage "")))
        [("to", "reviews"), ("from", "ratings")] sampleClient).resp = some
      { Speech := "Access to the reviews service is prohibited from the ratings service."
        DisplayText := "Access to the reviews service is prohibited from the ratings service."
        Source := "Istio Action" } :=
  have w := denyAccess_puts_one_denial_rule (answering 200 (.bytes (.garbage "")))
    sampleClient [("to", "reviews"), ("from", "ratings")] "reviews" "ratings"
    (by decide) (by decide) rfl
  ⟨w.1, by decide, (w.2 _ rfl rfl).1, (w.2 _ rfl rfl).2⟩

theorem DenyAccess_fails_on_503 (env : Env) (c : IstioClient) (to_ from_ : String)
    (h503 : ∀ request, ∃ b, env.Do request = .ok { StatusCode := 503, Body := b }) :
    ∃ e, (c.DenyAccess env to_ from_).result = .error e := by
  cases hu : env.urlError (rulesURL c to_) with
  | some msg =>
    unfold rulesURL at hu
    exact ⟨.url msg, by simp [IstioClient.DenyAccess, Marshal, NewRequest, hu]⟩
  | none =>
    obtain ⟨b, hb⟩ := h503 (denyRequest c to_ from_)
    exact ⟨.status "DenyAccess" 503, by rw [DenyAccess_eq env c to_ from_ hu]; simp [hb]⟩

theorem GetRouteRule_fails_on_503 (env : Env) (c : IstioClient) (name : String)
    (h503 : ∀ request, ∃ b, env.Do request = .ok { StatusCode := 503, Body := b }) :
    ∃ e, (c.GetRouteRule env name).result = .error e := by
  cases hu : env.urlError (routeRuleRequest c name).URL with
  | some msg =>
    unfold routeRuleRequest at hu
    exact ⟨.url msg, by simp [IstioClient.GetRouteRule, NewRequest, hu]⟩
  | none =>
    obtain ⟨b, hb⟩ := h503 (routeRuleRequest c name)
    exact ⟨.status "GetRouteRule" 503, by rw [GetRouteRule_eq env c name hu]; simp [hb]⟩

/-- C4. For every inbound body that decodes to an intent record whose action
selects a handler that calls the control plane (`denyAccess` or `getRoute`), and
every control plane that answers with status 503 and any body: the handler
returns an error and a nil response, and `ServeHTTP` answers through
`http.Error` with status 500 and the fixed text `Failed to perform action`. The
reply is the same for a second control plane that answers 503 with other
bodies. -/
theorem control_plane_503_gives_generic_500 (env env' : Env) (h : webhookHandler)
    (data : Data) (aiRequest : ai.Request)
    (hdec : Unmarshal ai.Request.decode data {} = .ok aiRequest)
    (hact : aiRequest.Result.Action = "denyAccess" ∨ aiRequest.Result.Action = "getRoute")
    (h503 : ∀ request, ∃ b, env.Do request = .ok { StatusCode := 503, Body := b })
    (h503' : ∀ request, ∃ b, env'.Do request = .ok { StatusCode := 503, Body := b }) :
    (dispatch env h aiRequest.Result.Action aiRequest.Result.Parameters).2.resp = none ∧
    (∃ e, (dispatch env h aiRequest.Result.Action aiRequest.Result.Parameters).2.err = some e) ∧
    (h.ServeHTTP env (.bytes data)).reply = .error "Failed to perform action" 500 ∧
    (h.ServeHTTP env (.bytes data)).reply.status = 500 ∧
    (h.ServeHTTP env' (.bytes data)).reply = (h.ServeHTTP env (.bytes data)).reply := by
  have key : ∀ env0 : Env,
      (∀ request, ∃ b, env0.Do request = .ok { StatusCode := 503, Body := b }) →
      (dispatch env0 h aiRequest.Result.Action aiRequest.Result.Parameters).2.resp = none ∧
      ∃ e, (dispatch env0 h aiRequest.Result.Action aiRequest.Result.Parameters).2.err
        = some e := by
    intro env0 h0
    rcases hact with ha | ha
    · obtain ⟨e, he⟩ := DenyAccess_fails_on_503 env0 h.istioClient
        (mapIndex "" aiRequest.Result.Parameters "to")
        (mapIndex "" aiRequest.Result.Parameters "from") h0
      simp [dispatch, ha, denyAccess, he]
    · obtain ⟨e, he⟩ := GetRouteRule_fails_on_503 env0 h.istioClient
        (mapIndex "" aiRequest.Result.Parameters "serviceName") h0
      simp [dispatch, ha, getRoute, he]
  obtain ⟨hresp, e, he⟩ := key env h503
  obtain ⟨-, e', he'⟩ := key env' h503'
  have hr := ServeHTTP_reply_of_err env h data aiRequest e hdec he
  have hr' := ServeHTTP_reply_of_err env' h data aiRequest e' hdec he'
  exact ⟨hresp, ⟨e, he⟩, hr, by rw [hr]; rfl, by rw [hr, hr']⟩

/-- C4, at the two actions and two control planes answering 503 with different
bodies. -/
theorem control_plane_503_gives_generic_500_witness :
    ((webhookServer sampleClient).ServeHTTP (answering 503 (.bytes (.garbage "upstream down")))
        (intentBody "denyAccess" [("to", "reviews"), ("from", "ratings")])).reply
      = .error "Failed to perform action" 500 ∧
    ((webhookServer sampleClient).ServeHTTP
        (answering 503 (.bytes (.json (.str "secret"))))
        (intentBody "getRoute" [("serviceName", "reviews")])).reply
      = ((webhookServer sampleClient).ServeHTTP
        (answering 503 (.bytes (.garbage "upstream down")))
        (intentBody "getRoute" [("serviceName", "reviews")])).reply :=
  ⟨(control_plane_503_gives_generic_500 (answering 503 (.bytes (.garbage "upstream down")))
      (answering 503 (.bytes (.json (.str "secret")))) (webhookServer sampleClient) _
      ⟨⟨"denyAccess", [("from", "ratings"), ("to", "reviews")]⟩⟩ (by rfl) (Or.inl rfl)
      (fun _ => ⟨_, rfl⟩) (fun _ => ⟨_, rfl⟩)).2.2.1,
   (control_plane_503_gives_generic_500 (answering 503 (.bytes (.garbage "upstream down")))
      (answering 503 (.bytes (.json (.str "secret")))) (webhookServer sampleClient) _
      ⟨⟨"getRoute", [("serviceName", "reviews")]⟩⟩ (by rfl) (Or.inr rfl)
      (fun _ => ⟨_, rfl⟩) (fun _ => ⟨_, rfl⟩)).2.2.2.2⟩

/-- C3. For every service name `s` and every integer `n`: when the parameter
`serviceName` is `s` and `GetRouteRule(s)` succeeds with a route rule whose
`Spec.HttpReqRetries.SimpleRetry.Attempts` is `n`, the handler `getRoute` returns
a nil error and a response whose `Speech` and `DisplayText` are both
`The <s> route has HTTP retries set to <n>`, with `n` in decimal. -/
theorem getRoute_reports_the_retries (env : Env) (c : IstioClient) (params : GoMap String)
    (s : String) (n : Int) (routeRule : RouteRule)
    (hname : mapIndex "" params "serviceName" = s)
    (hok : (c.GetRouteRule env s).result = .ok routeRule)
    (hn : routeRule.Spec.HttpReqRetries.SimpleRetry.Attempts = n) :
    (getRoute env params c).err = none ∧
    (getRoute env params c).resp = some
      { Speech := "The " ++ s ++ " route has HTTP retries set to " ++ toString n
        DisplayText := "The " ++ s ++ " route has HTTP retries set to " ++ toString n
        Source := "Istio Action" } := by
  simp [getRoute, hname, hok, hn]

/-- C3, at `s = reviews`, `n = 3`, and at a negative count. -/
theorem getRoute_reports_the_retries_witness :
    (getRoute (routeRuleService 3) [("serviceName", "reviews")] sampleClient).err = none ∧
    (getRoute (routeRuleService 3) [("serviceName", "reviews")] sampleClient).resp = some
      { Speech := "The reviews route has HTTP retries set to 3"
        DisplayText := "The reviews route has HTTP retries set to 3"
        Source := "Istio Action" } ∧
    (getRoute (routeRuleService (-12)) [("serviceName", "reviews")] sampleClient).resp = some
      { Speech := "The reviews route has HTTP retries set to -12"
        DisplayText := "The reviews route has HTTP retries set to -12"
        Source := "Istio Action" } :=
  have w := getRoute_reports_the_retries (routeRuleService 3) sampleClient
    [("serviceName", "reviews")] "reviews" 3
    { Type_ := "route-rule", Name := "reviews-default",
      Spec := { Destination := "reviews.default.svc.cluster.local", Precedence := 1,
                Route := [{ Tags := [("version", "v1")], Weight := 100 }],
                HttpReqRetries := { SimpleRetry := { Attempts := 3, PerTryTimeout := "2s" } } } }
    (by decide) (by rfl) rfl
  have w' := getRoute_reports_the_retries (routeRuleService (-12)) sampleClient
    [("serviceName", "reviews")] "reviews" (-12)
    { Type_ := "route-rule", Name := "reviews-default",
      Spec := { Destination := "reviews.default.svc.cluster.local", Precedence := 1,
                Route := [{ Tags := [("version", "v1")], Weight := 100 }],
                HttpReqRetries := { SimpleRetry := { Attempts := -12, PerTryTimeout := "2s" } } } }
    (by decide) (by rfl) rfl
  ⟨w.1, w.2, w'.2⟩

/-! ### Decoding route rule documents -/

theorem bind_pure_eq_ok {α β : Type} (e : Except JsonErr α) (f : α → β) (r : β) :
    (e >>= fun a => pure (f a)) = Except.ok r ↔ ∃ a, e = .ok a ∧ f a = r := by
  cases e with
  | error err => simp [bind, Except.bind]
  | ok a => simp [bind, Except.bind, pure, Except.pure]

theorem pure_eq_ok {α : Type} (a r : α) :
    (pure a : Except JsonErr α) = Except.ok r ↔ a = r := by
  simp [pure, Except.pure]

theorem foldlM_ok_of_steps {T K : Type} (step : T → K → Except JsonErr T) (kvs : List K)
    (hstep : ∀ kv ∈ kvs, ∀ acc, ∃ acc', step acc kv = .ok acc') (cur : T) :
    ∃ r, kvs.foldlM step cur = .ok r := by
  induction kvs generalizing cur with
  | nil => exact ⟨cur, rfl⟩
  | cons kv rest ih =>
    obtain ⟨acc', h⟩ := hstep kv (List.mem_cons_self _ _) cur
    obtain ⟨r, hr⟩ := ih (fun kv' hm => hstep kv' (List.mem_cons_of_mem _ hm)) acc'
    exact ⟨r, by simp [List.foldlM, h, bind, Except.bind, hr]⟩

theorem foldlM_cons_ok {T K : Type} (step : T → K → Except JsonErr T) (kv : K) (rest : List K)
    (cur r : T) (h : (kv :: rest).foldlM step cur = .ok r) :
    ∃ mid, step cur kv = .ok mid ∧ rest.foldlM step mid = .ok r := by
  simp only [List.foldlM] at h
  cases hs : step cur kv with
  | error err => simp [hs, bind, Except.bind] at h
  | ok mid => exact ⟨mid, rfl, by simpa [hs, bind, Except.bind] using h⟩

theorem foldlM_frame {T A : Type} (name : String)
    (setField : String → Json → T → Except JsonErr T) (proj : T → A)
    (hmiss : ∀ k x acc acc', fieldMatch k name = false → setField k x acc = .ok acc' →
      proj acc' = proj acc)
    (kvs : List (String × Json)) (cur r : T)
    (hfold : kvs.foldlM (fun acc kv => setField kv.1 kv.2 acc) cur = .ok r)
    (hnone : lastField name kvs = none) : proj r = proj cur := by
  induction kvs generalizing cur with
  | nil => simp [List.foldlM, pure, Except.pure] at hfold; rw [hfold]
  | cons kv rest ih =>
    obtain ⟨mid, hstep, hrest⟩ := foldlM_cons_ok _ kv rest cur r hfold
    simp only [lastField] at hnone
    cases hl : lastField name rest with
    | some x => simp [hl] at hnone
    | none =>
      simp only [hl] at hnone
      have hm : fieldMatch kv.1 name = false := by
        cases hfm : fieldMatch kv.1 name with
        | true => simp [hfm] at hnone
        | false => rfl
      rw [ih mid hrest hl, hmiss kv.1 kv.2 cur mid hm hstep]

theorem foldlM_last {T A : Type} (name : String)
    (setField : String → Json → T → Except JsonErr T) (proj : T → A)
    (dec : Json → A → Except JsonErr A)
    (hhit : ∀ k x acc acc', fieldMatch k name = true → setField k x acc = .ok acc' →
      dec x (proj acc) = .ok (proj acc'))
    (hmiss : ∀ k x acc acc', fieldMatch k name = false → setField k x acc = .ok acc' →
      proj acc' = proj acc)
    (kvs : List (String × Json)) (cur r : T) (x : Json)
    (hfold : kvs.foldlM (fun acc kv => setField kv.1 kv.2 acc) cur = .ok r)
    (hlast : lastField name kvs = some x) : ∃ a, dec x a = .ok (proj r) := by
  induction kvs generalizing cur with
  | nil => simp [lastField] at hlast
  | cons kv rest ih =>
    obtain ⟨mid, hstep, hrest⟩ := foldlM_cons_ok _ kv rest cur r hfold
    simp only [lastField] at hlast
    cases hl : lastField name rest with
    | some y =>
      simp only [hl, Option.some.injEq] at hlast
      subst hlast
      exact ih mid hrest hl
    | none =>
      simp only [hl] at hlast
      cases hfm : fieldMatch kv.1 name with
      | false => simp [hfm] at hlast
      | true =>
        simp only [hfm, if_true, Option.some.injEq] at hlast
        subst hlast
        refine ⟨proj cur, ?_⟩
        rw [foldlM_frame name setField proj hmiss rest mid r hrest hl]
        exact hhit kv.1 kv.2 cur mid hfm hstep

theorem fieldMatch_excl (k a b : String) (ha : fieldMatch k a = true)
    (hne : (foldName a == foldName b) = false) : fieldMatch k b = false := by
  have hk : foldName k = foldName a := by simpa [fieldMatch] using ha
  simp only [fieldMatch, hk]
  exact hne

theorem decodeStruct_field {T A : Type} (target name : String)
    (setField : String → Json → T → Except JsonErr T) (proj : T → A)
    (dec : Json → A → Except JsonErr A)
    (hhit : ∀ k x acc acc', fieldMatch k name = true → setField k x acc = .ok acc' →
      dec x (proj acc) = .ok (proj acc'))
    (hmiss : ∀ k x acc acc', fieldMatch k name = false → setField k x acc = .ok acc' →
      proj acc' = proj acc)
    (v : Json) (cur r : T) (x : Json)
    (hdec : decodeStruct target setField v cur = .ok r)
    (hfield : v.field name = some x) : ∃ a, dec x a = .ok (proj r) := by
  cases v with
  | obj kvs =>
    exact foldlM_last name setField proj dec hhit hmiss kvs cur r x
      (by simpa [decodeStruct] using hdec) (by simpa [Json.field] using hfield)
  | _ => simp [Json.field] at hfield

theorem RouteRule_decode_Spec (v : Json) (cur r : RouteRule) (x : Json)
    (hdec : RouteRule.decode v cur = .ok r) (hfield : v.field "Spec" = some x) :
    ∃ a, RouteSpec.decode x a = .ok r.Spec := by
  refine decodeStruct_field "main.RouteRule" "Spec" RouteRule.setField (fun t => t.Spec)
    RouteSpec.decode ?_ ?_ v cur r x hdec hfield
  · intro k y acc acc' hk hset
    have h1 := fieldMatch_excl k "Spec" "Type" hk (by decide)
    have h2 := fieldMatch_excl k "Spec" "Name" hk (by decide)
    simp only [RouteRule.setField, hk, h1, h2, if_true, Bool.false_eq_true, if_false,
      bind_pure_eq_ok] at hset
    obtain ⟨s, hs, rfl⟩ := hset
    exact hs
  · intro k y acc acc' hk hset
    simp only [RouteRule.setField, hk, Bool.false_eq_true, if_false] at hset
    split at hset
    · simp only [bind_pure_eq_ok] at hset
      obtain ⟨s, hs, rfl⟩ := hset
      rfl
    · split at hset
      · simp only [bind_pure_eq_ok] at hset
        obtain ⟨s, hs, rfl⟩ := hset
        rfl
      · simp only [pure_eq_ok] at hset
        rw [hset]

theorem RouteSpec_decode_HttpReqRetries (v : Json) (cur r : RouteSpec) (x : Json)
    (hdec : RouteSpec.decode v cur = .ok r) (hfield : v.field "HttpReqRetries" = some x) :
    ∃ a, HttpReqRetries.decode x a = .ok r.HttpReqRetries := by
  refine decodeStruct_field "main.RouteSpec" "HttpReqRetries" RouteSpec.setField
    (fun t => t.HttpReqRetries) HttpReqRetries.decode ?_ ?_ v cur r x hdec hfield
  · intro k y acc acc' hk hset
    have h1 := fieldMatch_excl k "HttpReqRetries" "Destination" hk (by decide)
    simp only [RouteSpec.setField, hk, h1, if_true, Bool.false_eq_true, if_false,
      bind_pure_eq_ok] at hset
    obtain ⟨s, hs, rfl⟩ := hset
    exact hs
  · intro k y acc acc' hk hset
    simp only [RouteSpec.setField, hk, Bool.false_eq_true, if_false] at hset
    repeat' split at hset
    all_goals first
      | (simp only [bind_pure_eq_ok] at hset; obtain ⟨s, hs, rfl⟩ := hset; rfl)
      | (simp only [pure_eq_ok] at hset; rw [hset])

theorem HttpReqRetries_decode_SimpleRetry (v : Json) (cur r : HttpReqRetries) (x : Json)
    (hdec : HttpReqRetries.decode v cur = .ok r) (hfield : v.field "SimpleRetry" = some x) :
    ∃ a, SimpleRetry.decode x a = .ok r.SimpleRetry := by
  refine decodeStruct_field "main.HttpReqRetries" "SimpleRetry" HttpReqRetries.setField
    (fun t => t.SimpleRetry) SimpleRetry.decode ?_ ?_ v cur r x hdec hfield
  · intro k y acc acc' hk hset
    simp only [HttpReqRetries.setField, hk, if_true, bind_pure_eq_ok] at hset
    obtain ⟨s, hs, rfl⟩ := hset
    exact hs
  · intro k y acc acc' hk hset
    simp only [HttpReqRetries.setField, hk, Bool.false_eq_true, if_false, pure_eq_ok] at hset
    rw [hset]

theorem SimpleRetry_decode_Attempts (v : Json) (cur r : SimpleRetry) (x : Json)
    (hdec : SimpleRetry.decode v cur = .ok r) (hfield : v.field "Attempts" = some x) :
    ∃ a, decodeInt64 x a = .ok r.Attempts := by
  refine decodeStruct_field "main.SimpleRetry" "Attempts" SimpleRetry.setField
    (fun t => t.Attempts) decodeInt64 ?_ ?_ v cur r x hdec hfield
  · intro k y acc acc' hk hset
    simp only [SimpleRetry.setField, hk, if_true, bind_pure_eq_ok] at hset
    obtain ⟨s, hs, rfl⟩ := hset
    exact hs
  · intro k y acc acc' hk hset
    simp only [SimpleRetry.setField, hk, Bool.false_eq_true, if_false] at hset
    repeat' split at hset
    all_goals first
      | (simp only [bind_pure_eq_ok] at hset; obtain ⟨s, hs, rfl⟩ := hset; rfl)
      | (simp only [pure_eq_ok] at hset; rw [hset])

/-- Whatever a document holds elsewhere, a successful decoding stores the integer
literal found at `spec.httpReqRetries.simpleRetry.attempts`. -/
theorem decode_attempts_eq (doc : Json) (n : Int) (cur r : RouteRule)
    (hdec : RouteRule.decode doc cur = .ok r) (hlit : attemptsLiteral doc = some n) :
    r.Spec.HttpReqRetries.SimpleRetry.Attempts = n := by
  unfold attemptsLiteral at hlit
  cases h1 : doc.field "Spec" with
  | none => simp [h1] at hlit
  | some x1 =>
    cases h2 : x1.field "HttpReqRetries" with
    | none => simp [h1, h2] at hlit
    | some x2 =>
      cases h3 : x2.field "SimpleRetry" with
      | none => simp [h1, h2, h3] at hlit
      | some x3 =>
        cases h4 : x3.field "Attempts" with
        | none => simp [h1, h2, h3, h4] at hlit
        | some x4 =>
          simp only [h1, h2, h3, h4, Option.some_bind] at hlit
          obtain ⟨a1, d1⟩ := RouteRule_decode_Spec doc cur r x1 hdec h1
          obtain ⟨a2, d2⟩ := RouteSpec_decode_HttpReqRetries x1 a1 _ x2 d1 h2
          obtain ⟨a3, d3⟩ := HttpReqRetries_decode_SimpleRetry x2 a2 _ x3 d2 h3
          obtain ⟨a4, d4⟩ := SimpleRetry_decode_Attempts x3 a3 _ x4 d3 h4
          cases x4 with
          | int i =>
            simp only [Option.some.injEq] at hlit
            subst hlit
            simp only [decodeInt64] at d4
            split at d4
            · simpa using d4.symm
            · simp at d4
          | _ => simp at hlit

theorem decodeString_ok (x : Json) (h : isStringValue x = true) (cur : String) :
    ∃ r, decodeString x cur = .ok r := by
  cases x <;> simp [isStringValue] at h <;> simp [decodeString]

theorem decodeInt64_ok (x : Json) (h : isInt64Value x = true) (cur : Int) :
    ∃ r, decodeInt64 x cur = .ok r := by
  cases x <;> simp [isInt64Value] at h <;> simp [decodeInt64, h]

theorem decodeStruct_ok {T : Type} (target : String)
    (setField : String → Json → T → Except JsonErr T) (fits : String → Json → Bool)
    (hstep : ∀ k x, fits k x = true → ∀ acc, ∃ acc', setField k x acc = .ok acc')
    (v : Json) (h : isObjectWith fits v = true) (cur : T) :
    ∃ r, decodeStruct target setField v cur = .ok r := by
  cases v with
  | null => exact ⟨cur, rfl⟩
  | obj kvs =>
    simp only [isObjectWith, List.all_eq_true] at h
    exact foldlM_ok_of_steps _ kvs (fun kv hm acc => hstep kv.1 kv.2 (h kv hm) acc) cur
  | _ => simp [isObjectWith] at h

theorem decodeMap_ok {T : Type} (target : String) (zero : T)
    (decodeElem : Json → T → Except JsonErr T) (fits : Json → Bool)
    (hstep : ∀ x, fits x = true → ∀ acc, ∃ acc', decodeElem x acc = .ok acc')
    (v : Json) (h : isObjectWith (fun _ x => fits x) v = true) (cur : GoMap T) :
    ∃ r, decodeMap target zero decodeElem v cur = .ok r := by
  cases v with
  | null => exact ⟨[], rfl⟩
  | obj kvs =>
    simp only [isObjectWith, List.all_eq_true] at h
    refine foldlM_ok_of_steps _ kvs (fun kv hm acc => ?_) cur
    obtain ⟨e, he⟩ := hstep kv.2 (h kv hm) zero
    exact ⟨mapSet acc kv.1 e, by simp [he, bind, Except.bind, pure, Except.pure]⟩
  | _ => simp [isObjectWith] at h

theorem decodeElems_ok {T : Type} (zero : T) (decodeElem : Json → T → Except JsonErr T)
    (fits : Json → Bool)
    (hstep : ∀ x, fits x = true → ∀ acc, ∃ acc', decodeElem x acc = .ok acc')
    (xs : List Json) (h : ∀ x ∈ xs, fits x = true) (cur : List T) :
    ∃ r, decodeElems zero decodeElem xs cur = .ok r := by
  induction xs generalizing cur with
  | nil => exact ⟨[], rfl⟩
  | cons x rest ih =>
    obtain ⟨e, he⟩ := hstep x (h x (List.mem_cons_self _ _)) (cur.headD zero)
    obtain ⟨r, hr⟩ := ih (fun y hy => h y (List.mem_cons_of_mem _ hy)) cur.tail
    exact ⟨e :: r, by simp only [decodeElems, he, hr, bind, Except.bind, pure, Except.pure]⟩

theorem decodeSlice_ok {T : Type} (target : String) (zero : T)
    (decodeElem : Json → T → Except JsonErr T) (fits : Json → Bool)
    (hstep : ∀ x, fits x = true → ∀ acc, ∃ acc', decodeElem x acc = .ok acc')
    (v : Json) (h : isArrayOf fits v = true) (cur : List T) :
    ∃ r, decodeSlice target zero decodeElem v cur = .ok r := by
  cases v with
  | null => exact ⟨[], rfl⟩
  | arr xs =>
    simp only [isArrayOf, List.all_eq_true] at h
    exact decodeElems_ok zero decodeElem fits hstep xs h cur
  | _ => simp [isArrayOf] at h

theorem step_ok {α T : Type} (e : Except JsonErr α) (f : α → T) (h : ∃ a, e = .ok a) :
    ∃ r, (e >>= fun a => pure (f a)) = Except.ok r := by
  obtain ⟨a, ha⟩ := h
  exact ⟨f a, by simp [ha, bind, Except.bind, pure, Except.pure]⟩

theorem SimpleRetry_setField_ok (k : String) (x : Json) (h : SimpleRetry.fits k x = true)
    (acc : SimpleRetry) : ∃ acc', SimpleRetry.setField k x acc = .ok acc' := by
  unfold SimpleRetry.fits at h
  unfold SimpleRetry.setField
  split
  · rename_i h1; simp only [h1, if_true] at h
    exact step_ok _ _ (decodeInt64_ok x h _)
  · rename_i h1; simp only [h1, if_false] at h
    split
    · rename_i h2; simp only [h2, if_true] at h
      exact step_ok _ _ (decodeString_ok x h _)
    · exact ⟨acc, rfl⟩

theorem SimpleTimeout_setField_ok (k : String) (x : Json) (h : SimpleTimeout.fits k x = true)
    (acc : SimpleTimeout) : ∃ acc', SimpleTimeout.setField k x acc = .ok acc' := by
  unfold SimpleTimeout.fits at h
  unfold SimpleTimeout.setField
  split
  · rename_i h1; simp only [h1, if_true] at h
    exact step_ok _ _ (decodeString_ok x h _)
  · exact ⟨acc, rfl⟩

theorem HttpReqRetries_setField_ok (k : String) (x : Json)
    (h : HttpReqRetries.fits k x = true) (acc : HttpReqRetries) :
    ∃ acc', HttpReqRetries.setField k x acc = .ok acc' := by
  unfold HttpReqRetries.fits at h
  unfold HttpReqRetries.setField
  split
  · rename_i h1; simp only [h1, if_true] at h
    exact step_ok _ _ (decodeStruct_ok _ _ _ SimpleRetry_setField_ok x h _)
  · exact ⟨acc, rfl⟩

theorem HttpReqTimeout_setField_ok (k : String) (x : Json)
    (h : HttpReqTimeout.fits k x = true) (acc : HttpReqTimeout) :
    ∃ acc', HttpReqTimeout.setField k x acc = .ok acc' := by
  unfold HttpReqTimeout.fits at h
  unfold HttpReqTimeout.setField
  split
  · rename_i h1; simp only [h1, if_true] at h
    exact step_ok _ _ (decodeStruct_ok _ _ _ SimpleTimeout_setField_ok x h _)
  · exact ⟨acc, rfl⟩

theorem Route_setField_ok (k : String) (x : Json) (h : Route.fits k x = true)
    (acc : Route) : ∃ acc', Route.setField k x acc = .ok acc' := by
  unfold Route.fits at h
  unfold Route.setField
  split
  · rename_i h1; simp only [h1, if_true] at h
    exact step_ok _ _ (decodeMap_ok _ _ _ isStringValue decodeString_ok x h _)
  · rename_i h1; simp only [h1, if_false] at h
    split
    · rename_i h2; simp only [h2, if_true] at h
      exact step_ok _ _ (decodeInt64_ok x h _)
    · exact ⟨acc, rfl⟩

theorem RouteSpec_setField_ok (k : String) (x : Json) (h : RouteSpec.fits k x = true)
    (acc : RouteSpec) : ∃ acc', RouteSpec.setField k x acc = .ok acc' := by
  unfold RouteSpec.fits at h
  unfold RouteSpec.setField
  split
  · rename_i h1; simp only [h1, if_true] at h
    exact step_ok _ _ (decodeString_ok x h _)
  · rename_i h1; simp only [h1, if_false] at h
    split
    · rename_i h2; simp only [h2, if_true] at h
      exact step_ok _ _ (decodeStruct_ok _ _ _ HttpReqRetries_setField_ok x h _)
    · rename_i h2; simp only [h2, if_false] at h
      split
      · rename_i h3; simp only [h3, if_true] at h
        exact step_ok _ _ (decodeStruct_ok _ _ _ HttpReqTimeout_setField_ok x h _)
      · rename_i h3; simp only [h3, if_false] at h
        split
        · rename_i h4; simp only [h4, if_true] at h
          exact step_ok _ _ (decodeInt64_ok x h _)
        · rename_i h4; simp only [h4, if_false] at h
          split
          · rename_i h5; simp only [h5, if_true] at h
            exact step_ok _ _ (decodeSlice_ok _ _ _ (isObjectWith Route.fits)
              (fun v hv acc => decodeStruct_ok _ _ _ Route_setField_ok v hv acc) x h _)
          · exact ⟨acc, rfl⟩

theorem RouteRule_setField_ok (k : String) (x : Json) (h : RouteRule.fits k x = true)
    (acc : RouteRule) : ∃ acc', RouteRule.setField k x acc = .ok acc' := by
  unfold RouteRule.fits at h
  unfold RouteRule.setField
  split
  · rename_i h1; simp only [h1, if_true] at h
    exact step_ok _ _ (decodeString_ok x h _)
  · rename_i h1; simp only [h1, if_false] at h
    split
    · rename_i h2; simp only [h2, if_true] at h
      exact step_ok _ _ (decodeString_ok x h _)
    · rename_i h2; simp only [h2, if_false] at h
      split
      · rename_i h3; simp only [h3, if_true] at h
        exact step_ok _ _ (decodeStruct_ok _ _ _ RouteSpec_setField_ok x h _)
      · exact ⟨acc, rfl⟩

/-- Decoding a route rule document succeeds, whatever the target holds. -/
theorem RouteRule_decode_ok (doc : Json) (h : isRouteRuleDocument doc = true)
    (cur : RouteRule) : ∃ r, RouteRule.decode doc cur = .ok r :=
  decodeStruct_ok _ _ _ RouteRule_setField_ok doc h cur

/-- C8. For every integer `n` in the `int64` range and every route rule document
(every member that names a field of `RouteRule`, at any depth, holds a value of
the kind of that field; other members are free) in which
`spec.httpReqRetries.simpleRetry.attempts` is the integer literal `n`: decoding
the document into a zero `RouteRule` succeeds and the decoded
`Spec.HttpReqRetries.SimpleRetry.Attempts` is `n`; and `GetRouteRule`, answered
with status 200 and this document as body, returns such a route rule. -/
theorem decoded_attempts_is_the_literal (doc : Json) (n : Int) (hn : inInt64 n)
    (hdoc : isRouteRuleDocument doc = true) (hlit : attemptsLiteral doc = some n) :
    (∃ routeRule, Unmarshal RouteRule.decode (.json doc) {} = .ok routeRule ∧
      routeRule.Spec.HttpReqRetries.SimpleRetry.Attempts = n) ∧
    (∀ (env : Env) (c : IstioClient) (name : String),
      env.urlError (routeRuleRequest c name).URL = none →
      env.Do (routeRuleRequest c name)
        = .ok { StatusCode := 200, Body := .bytes (.json doc) } →
      ∃ routeRule, (c.GetRouteRule env name).result = .ok routeRule ∧
        routeRule.Spec.HttpReqRetries.SimpleRetry.Attempts = n) := by
  obtain ⟨r, hr⟩ := RouteRule_decode_ok doc hdoc {}
  have ha := decode_attempts_eq doc n {} r hr hlit
  refine ⟨⟨r, by simpa [Unmarshal] using hr, ha⟩, ?_⟩
  intro env c name hurl hdo
  refine ⟨r, ?_, ha⟩
  rw [GetRouteRule_eq env c name hurl]
  simp [hdo, ReadAll, Unmarshal, hr]

/-- C8, at a document with nested retry, timeout and route members, an unknown
member and a repeated key, for `n = 3` and for the least `int64`. -/
theorem decoded_attempts_is_the_literal_witness :
    (∃ routeRule, Unmarshal RouteRule.decode (.json (.obj [
        ("type", .str "route-rule"), ("name", .str "reviews-default"),
        ("spec", .obj [("destination", .str "reviews.default.svc.cluster.local"),
          ("precedence", .int 1),
          ("route", .arr [.obj [("tags", .obj [("version", .str "v1")]), ("weight", .int 100)]]),
          ("httpReqTimeout", .obj [("simpleTimeout", .obj [("timeout", .str "10s")])]),
          ("httpReqRetries", .obj [("simpleRetry",
            .obj [("attempts", .int 7), ("perTryTimeout", .str "2s"), ("Attempts", .int 3)])]),
          ("comment", .arr [.bool true, .real "1.5"])])])) {} = .ok routeRule ∧
      routeRule.Spec.HttpReqRetries.SimpleRetry.Attempts = 3) ∧
    (∃ routeRule, (sampleClient.GetRouteRule (routeRuleService (-9223372036854775808))
        "reviews").result = .ok routeRule ∧
      routeRule.Spec.HttpReqRetries.SimpleRetry.Attempts = -9223372036854775808) :=
  ⟨(decoded_attempts_is_the_literal _ 3 (by decide) (by decide) (by decide)).1,
   (decoded_attempts_is_the_literal _ (-9223372036854775808) (by decide) (by decide)
      (by decide)).2 (routeRuleService (-9223372036854775808)) sampleClient "reviews" rfl rfl⟩

/-- A remark on the reach of C8: a member that names a field and holds a value of
another kind (here a string under `precedence`) makes `json.Unmarshal` return a
type error, and `GetRouteRule` returns no route rule; such a text is not a route
rule document. -/
theorem ill_typed_member_is_refused :
    isRouteRuleDocument (.obj [("spec", .obj [("precedence", .str "high"),
      ("httpReqRetries", .obj [("simpleRetry", .obj [("attempts", .int 3)])])])]) = false ∧
    Unmarshal RouteRule.decode (.json (.obj [("spec", .obj [("precedence", .str "high"),
      ("httpReqRetries", .obj [("simpleRetry", .obj [("attempts", .int 3)])])])])) {}
      = .error (.mismatch "string" "int64") := by
  exact ⟨by decide, by rfl⟩

end IstioWebhook
